import Mathlib

/-!
# Battery management core: safety FSM, equivalent-circuit model, EKF, SOH tracker

A shallow embedding of the C sources under `embedded/src` and `embedded/inc`.

Modelling conventions
* A C `float` is an exact rational number (`ℚ`): rounding, infinities and NaN are
  not modelled, and a decimal literal such as `4.2f` stands for the rational `4.2`.
  The one exception is `BMS_ECM_Step_fl`, which repeats `BMS_ECM_Step` with the
  binary32 rounding of every store made explicit.
* `uint8_t` and `uint32_t` values are natural numbers; every store reduces modulo
  `2 ^ 8` or `2 ^ 32`, as the C assignment does.
* `BMS_State_t` is the integer value of the enumerator, so that a value outside
  the six named states can be expressed.
* A function that mutates a struct through a non-null pointer is a function from
  the old struct value to the new one.
* `expf` comes from the C math library; the model takes it as a parameter.
-/

namespace BMS

/-! ## Configuration constants (`inc/bms_config.h`) -/

def R0 : ℚ := 0.100
def R1 : ℚ := 0.050
def C1 : ℚ := 400.0
def NOMINAL_CAPACITY : ℚ := 1.862
def DT_CORE : ℚ := 1.0
def SOC_MIN : ℚ := 0.0
def SOC_MAX : ℚ := 1.0
def EKF_Q_SOC : ℚ := 1e-3
def EKF_Q_V1 : ℚ := 1e-2
def EKF_R_VOLTAGE : ℚ := 1e-1
def EKF_P_INIT : ℚ := 0.1
def VOLTAGE_MIN : ℚ := 2.7
def VOLTAGE_MAX : ℚ := 4.2
def CURRENT_MAX : ℚ := 2.0
def TEMP_MIN : ℚ := -10.0
def TEMP_MAX : ℚ := 45.0
def EOL_CAPACITY : ℚ := 1.328
def SOH_UPDATE_CYCLES : Nat := 20

/-! ## Safety FSM (`inc/safety_fsm.h`, `src/safety_fsm.c`) -/

def BMS_STATE_INIT : Int := 0
def BMS_STATE_NORMAL : Int := 1
def BMS_STATE_CHARGING : Int := 2
def BMS_STATE_DISCHARGING : Int := 3
def BMS_STATE_FAULT : Int := 4
def BMS_STATE_PROTECTION : Int := 5

def FAULT_NONE : Nat := 0x00
def FAULT_OVERVOLTAGE : Nat := 0x01
def FAULT_UNDERVOLTAGE : Nat := 0x02
def FAULT_OVERCURRENT : Nat := 0x04
def FAULT_OVERTEMP : Nat := 0x08
def FAULT_UNDERTEMP : Nat := 0x10
def FAULT_SOC_LOW : Nat := 0x20
def FAULT_SENSOR : Nat := 0x40
def FAULT_COMMS : Nat := 0x80

/-- The struct `Safety_FSM`. -/
structure Safety_FSM where
  current_state : Int
  fault_flags : Nat
  fault_start_time : Nat
  protection_count : Nat
  current_limit : ℚ
  state_entry_time : Nat
  current_time : Nat
deriving DecidableEq

/-- The static helper `absf` of `safety_fsm.c`. -/
def absf (x : ℚ) : ℚ := if x < 0 then -x else x

/-- The C expression `(uint8_t)(~flag)`: `flag` is promoted to `int`,
complemented (`-flag - 1`) and truncated to eight bits. -/
def u8_not (flag : Nat) : Nat := Int.toNat ((-(flag : Int) - 1) % 256)

def Safety_Init (fsm : Safety_FSM) : Safety_FSM :=
  { fsm with
    current_state := BMS_STATE_INIT
    fault_flags := FAULT_NONE
    fault_start_time := 0
    protection_count := 0
    current_limit := CURRENT_MAX
    state_entry_time := 0
    current_time := 0 }

def set_fault (fsm : Safety_FSM) (flag : Nat) : Safety_FSM :=
  { fsm with fault_flags := (fsm.fault_flags ||| flag) % 256 }

def clear_fault (fsm : Safety_FSM) (flag : Nat) : Safety_FSM :=
  { fsm with fault_flags := (fsm.fault_flags &&& u8_not flag) % 256 }

/-- The fault-detection half of `Safety_Check` (lines 44-61). -/
def Safety_Check_detect (fsm : Safety_FSM) (voltage current temperature soc : ℚ) :
    Safety_FSM :=
  let fsm := if voltage > VOLTAGE_MAX then set_fault fsm FAULT_OVERVOLTAGE
             else clear_fault fsm FAULT_OVERVOLTAGE
  let fsm := if voltage < VOLTAGE_MIN then set_fault fsm FAULT_UNDERVOLTAGE
             else clear_fault fsm FAULT_UNDERVOLTAGE
  let fsm := if absf current > CURRENT_MAX then set_fault fsm FAULT_OVERCURRENT
             else clear_fault fsm FAULT_OVERCURRENT
  let fsm := if temperature > TEMP_MAX then set_fault fsm FAULT_OVERTEMP
             else clear_fault fsm FAULT_OVERTEMP
  let fsm := if temperature < TEMP_MIN then set_fault fsm FAULT_UNDERTEMP
             else clear_fault fsm FAULT_UNDERTEMP
  let fsm := if soc ≤ SOC_MIN + 1e-6 then set_fault fsm FAULT_SOC_LOW
             else clear_fault fsm FAULT_SOC_LOW
  fsm

/-- The state-transition half of `Safety_Check` (the `switch`, lines 63-117). -/
def Safety_Check_transition (fsm : Safety_FSM) (current : ℚ) : Safety_FSM :=
  if fsm.current_state = BMS_STATE_INIT then
    { fsm with
      current_state :=
        if fsm.fault_flags = FAULT_NONE then BMS_STATE_NORMAL else BMS_STATE_FAULT
      state_entry_time := fsm.current_time }
  else if fsm.current_state = BMS_STATE_NORMAL ∨ fsm.current_state = BMS_STATE_CHARGING
      ∨ fsm.current_state = BMS_STATE_DISCHARGING then
    if fsm.fault_flags ≠ FAULT_NONE then
      { fsm with
        current_state := BMS_STATE_FAULT
        fault_start_time := fsm.current_time
        state_entry_time := fsm.current_time }
    else if current > 0.05 then { fsm with current_state := BMS_STATE_CHARGING }
    else if current < -0.05 then { fsm with current_state := BMS_STATE_DISCHARGING }
    else { fsm with current_state := BMS_STATE_NORMAL }
  else if fsm.current_state = BMS_STATE_FAULT then
    if fsm.fault_flags = FAULT_NONE then
      { fsm with
        current_state := BMS_STATE_PROTECTION
        protection_count := (fsm.protection_count + 1) % 2 ^ 32
        state_entry_time := fsm.current_time }
    else fsm
  else if fsm.current_state = BMS_STATE_PROTECTION then
    if fsm.fault_flags = FAULT_NONE then
      { fsm with
        current_state := BMS_STATE_NORMAL
        state_entry_time := fsm.current_time }
    else
      { fsm with
        current_state := BMS_STATE_FAULT
        fault_start_time := fsm.current_time
        state_entry_time := fsm.current_time }
  else
    { fsm with current_state := BMS_STATE_FAULT }

def Safety_Check (fsm : Safety_FSM) (voltage current temperature soc : ℚ) : Safety_FSM :=
  Safety_Check_transition (Safety_Check_detect fsm voltage current temperature soc) current

def Safety_GetState (fsm : Safety_FSM) : Int := fsm.current_state

def Safety_IsOperationAllowed (fsm : Safety_FSM) : Bool :=
  decide (fsm.current_state ≠ BMS_STATE_FAULT)

def Safety_GetFaultString (fault_flags : Nat) : String :=
  if fault_flags = FAULT_NONE then "NONE"
  else if fault_flags &&& FAULT_OVERVOLTAGE ≠ 0 then "OVERVOLTAGE"
  else if fault_flags &&& FAULT_UNDERVOLTAGE ≠ 0 then "UNDERVOLTAGE"
  else if fault_flags &&& FAULT_OVERCURRENT ≠ 0 then "OVERCURRENT"
  else if fault_flags &&& FAULT_OVERTEMP ≠ 0 then "OVERTEMP"
  else if fault_flags &&& FAULT_UNDERTEMP ≠ 0 then "UNDERTEMP"
  else if fault_flags &&& FAULT_SOC_LOW ≠ 0 then "SOC_LOW"
  else if fault_flags &&& FAULT_SENSOR ≠ 0 then "SENSOR"
  else if fault_flags &&& FAULT_COMMS ≠ 0 then "COMMS"
  else "UNKNOWN"

/-! ## Equivalent-circuit model (`inc/bms_model.h`, `src/bms_model.c`) -/

/-- The struct `BMS_State`. -/
structure BMS_State where
  soc : ℚ
  v1 : ℚ
  v_terminal : ℚ
  i_prev : ℚ
  step_count : Nat
deriving DecidableEq

/-- The static helper `clampf` (the same in `bms_model.c` and `soc_estimator.c`). -/
def clampf (x lo hi : ℚ) : ℚ :=
  if x < lo then lo else if x > hi then hi else x

/-- The static helper `ocv_from_soc` (the same in `bms_model.c` and `soc_estimator.c`). -/
def ocv_from_soc (soc : ℚ) : ℚ :=
  let soc := clampf soc SOC_MIN SOC_MAX
  3.2 + 1.0 * soc

def BMS_Init (state : BMS_State) : BMS_State :=
  let state := { state with soc := 1.0 }
  let state := { state with v1 := 0.0 }
  let state := { state with v_terminal := ocv_from_soc state.soc }
  let state := { state with i_prev := 0.0 }
  { state with step_count := 0 }

def BMS_ECM_Step (expf : ℚ → ℚ) (state : BMS_State) (current dt : ℚ) : BMS_State :=
  if dt ≤ 0.0 then state
  else
    let i_eff := |current|
    let tau := R1 * C1
    let alpha := if tau > 1e-6 then expf (-dt / tau) else 0.0
    let state := { state with v1 := state.v1 * alpha + (i_eff * R1) * (1.0 - alpha) }
    let capacity_coulombs := NOMINAL_CAPACITY * 3600.0
    let state :=
      if capacity_coulombs > 1e-12 then
        let delta_soc := (current * dt) / capacity_coulombs
        let state := { state with soc := state.soc + delta_soc }
        let state := if state.soc < SOC_MIN then { state with soc := SOC_MIN } else state
        if state.soc > SOC_MAX then { state with soc := SOC_MAX } else state
      else state
    let ocv := ocv_from_soc state.soc
    let state := { state with v_terminal := ocv - state.v1 - i_eff * R0 }
    let state := { state with i_prev := current }
    { state with step_count := (state.step_count + 1) % 2 ^ 32 }

def BMS_GetVoltage (state : BMS_State) (current : ℚ) : ℚ :=
  let ocv := ocv_from_soc state.soc
  let i_eff := |current|
  ocv - state.v1 - i_eff * R0

def BMS_UpdateCoulombCount (state : BMS_State) (current dt : ℚ) : BMS_State :=
  if dt ≤ 0.0 then state
  else
    let capacity_coulombs := NOMINAL_CAPACITY * 3600.0
    if capacity_coulombs > 1e-12 then
      let state := { state with soc := state.soc + (current * dt) / capacity_coulombs }
      { state with soc := clampf state.soc SOC_MIN SOC_MAX }
    else state

/-! ## Binary32 rounding

The definitions above add, multiply and divide exactly. The C code stores every
result in a `float`; `BMS_ECM_Step_fl` below is `BMS_ECM_Step` with the rounding `fl`
of each such store made explicit, and `f32` is that rounding for binary32
(round-to-nearest-even, each operation rounded on its own). Results beyond the
largest finite binary32 value are not mapped to infinity. -/

/-- The helper `ocv_from_soc` with the result of every operation rounded by `fl`. -/
def ocv_from_soc_fl (fl : ℚ → ℚ) (soc : ℚ) : ℚ :=
  let soc := clampf soc SOC_MIN SOC_MAX
  fl (fl 3.2 + fl (1.0 * soc))

/-- The function `BMS_ECM_Step` with the result of every arithmetic operation, and
every decimal constant that is not a binary fraction, rounded by `fl`. With `fl` the
identity it is `BMS_ECM_Step`. -/
def BMS_ECM_Step_fl (fl : ℚ → ℚ) (expf : ℚ → ℚ) (state : BMS_State) (current dt : ℚ) :
    BMS_State :=
  if dt ≤ 0.0 then state
  else
    let i_eff := |current|
    let tau := fl (fl R1 * C1)
    let alpha := if tau > fl 1e-6 then expf (fl (-dt / tau)) else 0.0
    let state := { state with
      v1 := fl (fl (state.v1 * alpha) + fl (fl (i_eff * fl R1) * fl (1.0 - alpha))) }
    let capacity_coulombs := fl (fl NOMINAL_CAPACITY * 3600.0)
    let state :=
      if capacity_coulombs > fl 1e-12 then
        let delta_soc := fl (fl (current * dt) / capacity_coulombs)
        let state := { state with soc := fl (state.soc + delta_soc) }
        let state := if state.soc < SOC_MIN then { state with soc := SOC_MIN } else state
        if state.soc > SOC_MAX then { state with soc := SOC_MAX } else state
      else state
    let ocv := ocv_from_soc_fl fl state.soc
    let state := { state with v_terminal := fl (fl (ocv - state.v1) - fl (i_eff * fl R0)) }
    let state := { state with i_prev := current }
    { state with step_count := (state.step_count + 1) % 2 ^ 32 }

/-! ## Extended Kalman filter (`inc/soc_estimator.h`, `src/soc_estimator.c`) -/

/-- The struct `EKF_State`. -/
structure EKF_State where
  soc : ℚ
  v1 : ℚ
  p11 : ℚ
  p12 : ℚ
  p21 : ℚ
  p22 : ℚ
  q11 : ℚ
  q22 : ℚ
  r_voltage : ℚ
  last_v_pred : ℚ
  last_innov : ℚ
deriving DecidableEq

def EKF_Init (ekf : EKF_State) (init_soc : ℚ) : EKF_State :=
  { ekf with
    soc := clampf init_soc SOC_MIN SOC_MAX
    v1 := 0.0
    p11 := 0.01
    p12 := 0.0
    p21 := 0.0
    p22 := 0.01
    q11 := 1e-4
    q22 := 1e-3
    r_voltage := 1e-2
    last_v_pred := 0.0
    last_innov := 0.0 }

def EKF_Predict (expf : ℚ → ℚ) (ekf : EKF_State) (current dt : ℚ) : EKF_State :=
  if dt ≤ 0.0 then ekf
  else
    let i_eff := |current|
    let tau := R1 * C1
    let alpha := if tau > 1e-9 then expf (-dt / tau) else 0.0
    let denom := NOMINAL_CAPACITY * 3600.0
    let ekf :=
      if denom > 1e-12 then
        let ekf := { ekf with soc := ekf.soc + (current * dt) / denom }
        { ekf with soc := clampf ekf.soc SOC_MIN SOC_MAX }
      else ekf
    let ekf := { ekf with v1 := ekf.v1 * alpha + (i_eff * R1) * (1.0 - alpha) }
    let A00 : ℚ := 1.0
    let A01 : ℚ := 0.0
    let A10 : ℚ := 0.0
    let A11 : ℚ := alpha
    let P00 := ekf.p11
    let P01 := ekf.p12
    let P10 := ekf.p21
    let P11 := ekf.p22
    let AP00 := A00 * P00 + A01 * P10
    let AP01 := A00 * P01 + A01 * P11
    let AP10 := A10 * P00 + A11 * P10
    let AP11 := A10 * P01 + A11 * P11
    { ekf with
      p11 := AP00 * A00 + AP01 * A01 + ekf.q11
      p12 := AP00 * A10 + AP01 * A11
      p21 := AP10 * A00 + AP11 * A01
      p22 := AP10 * A10 + AP11 * A11 + ekf.q22 }

def EKF_Update (ekf : EKF_State) (v_measured current : ℚ) : EKF_State :=
  let i_abs := |current|
  let ocv := ocv_from_soc ekf.soc
  let v_pred := ocv - ekf.v1 - i_abs * R0
  let y := v_measured - v_pred
  let ekf := { ekf with last_v_pred := v_pred, last_innov := y }
  let h1 : ℚ := 1.0
  let h2 : ℚ := -1.0
  let S := h1 * (ekf.p11 * h1 + ekf.p12 * h2) + h2 * (ekf.p21 * h1 + ekf.p22 * h2)
    + ekf.r_voltage
  let S := if S < 1e-12 then 1e-12 else S
  let k1 := (ekf.p11 * h1 + ekf.p12 * h2) / S
  let k2 := (ekf.p21 * h1 + ekf.p22 * h2) / S
  let ekf := { ekf with soc := ekf.soc + k1 * y }
  let ekf := { ekf with v1 := ekf.v1 + k2 * y }
  let ekf := { ekf with soc := clampf ekf.soc SOC_MIN SOC_MAX }
  let p11 := ekf.p11
  let p12 := ekf.p12
  let p21 := ekf.p21
  let p22 := ekf.p22
  { ekf with
    p11 := (1.0 - k1 * h1) * p11 + (-k1 * h2) * p21
    p12 := (1.0 - k1 * h1) * p12 + (-k1 * h2) * p22
    p21 := (-k2 * h1) * p11 + (1.0 - k2 * h2) * p21
    p22 := (-k2 * h1) * p12 + (1.0 - k2 * h2) * p22 }

/-- The innovation covariance `S` of `EKF_Update` after its floor
(lines 97-99 of `soc_estimator.c`). -/
def EKF_Update_S (ekf : EKF_State) : ℚ :=
  let h1 : ℚ := 1.0
  let h2 : ℚ := -1.0
  let S := h1 * (ekf.p11 * h1 + ekf.p12 * h2) + h2 * (ekf.p21 * h1 + ekf.p22 * h2)
    + ekf.r_voltage
  if S < 1e-12 then 1e-12 else S

def EKF_GetSOC (ekf : EKF_State) : ℚ := ekf.soc

/-! ## State-of-health tracker (`inc/soh_estimator.h`, `src/soh_estimator.c`) -/

/-- The struct `SOH_State`. -/
structure SOH_State where
  capacity_initial_Ah : ℚ
  capacity_est_Ah : ℚ
  soh_percent : ℚ
  total_cycles : Nat
  cycles_since_update : Nat
  is_charging : Bool
  discharged_Ah : ℚ
  v_min_cycle : ℚ
  v_max_cycle : ℚ
  prev_voltage : ℚ
deriving DecidableEq

def SOH_Init (soh : SOH_State) (capacity_initial_Ah : ℚ) : SOH_State :=
  { soh with
    capacity_initial_Ah := capacity_initial_Ah
    capacity_est_Ah := capacity_initial_Ah
    soh_percent := 100.0
    total_cycles := 0
    cycles_since_update := 0
    discharged_Ah := 0.0
    is_charging := false
    v_min_cycle := 5.0
    v_max_cycle := 0.0
    prev_voltage := 5.0 }

/-- The function `SOH_CheckCycleComplete`: the new struct value and the returned flag. -/
def SOH_CheckCycleComplete (soh : SOH_State) (voltage : ℚ) : SOH_State × Bool :=
  if soh.is_charging = false ∧ voltage ≤ VOLTAGE_MIN + 0.1 ∧ voltage > soh.prev_voltage then
    let soh := { soh with total_cycles := (soh.total_cycles + 1) % 2 ^ 32 }
    let soh := { soh with cycles_since_update := (soh.cycles_since_update + 1) % 2 ^ 32 }
    if soh.discharged_Ah > 0.1 then
      let soh :=
        if soh.cycles_since_update ≥ SOH_UPDATE_CYCLES then
          let new_capacity := soh.discharged_Ah
          let soh := { soh with
            capacity_est_Ah := 0.9 * soh.capacity_est_Ah + 0.1 * new_capacity }
          let soh := { soh with
            soh_percent := (soh.capacity_est_Ah / soh.capacity_initial_Ah) * 100.0 }
          { soh with cycles_since_update := 0 }
        else soh
      let soh := { soh with discharged_Ah := 0.0 }
      let soh := { soh with v_min_cycle := 5.0 }
      let soh := { soh with v_max_cycle := 0.0 }
      (soh, true)
    else (soh, false)
  else (soh, false)

def SOH_Update (soh : SOH_State) (current_A voltage_V dt_s : ℚ) : SOH_State :=
  if dt_s ≤ 0.0 then soh
  else
    let soh := if voltage_V < soh.v_min_cycle then { soh with v_min_cycle := voltage_V }
               else soh
    let soh := if voltage_V > soh.v_max_cycle then { soh with v_max_cycle := voltage_V }
               else soh
    let was_charging := soh.is_charging
    let soh := { soh with is_charging := decide (current_A > 0.05) }
    let soh :=
      if soh.is_charging = false ∧ current_A < -0.05 then
        { soh with discharged_Ah := soh.discharged_Ah + (-current_A) * dt_s / 3600.0 }
      else soh
    let soh :=
      if was_charging = true ∧ soh.is_charging = false then
        let soh := { soh with v_min_cycle := voltage_V }
        { soh with v_max_cycle := voltage_V }
      else soh
    let soh := (SOH_CheckCycleComplete soh voltage_V).1
    { soh with prev_voltage := voltage_V }

/-- The statements of `SOH_Update` that precede its call of
`SOH_CheckCycleComplete` (lines 26-43 of `soh_estimator.c`). -/
def SOH_Update_track (soh : SOH_State) (current_A voltage_V dt_s : ℚ) : SOH_State :=
  let soh := if voltage_V < soh.v_min_cycle then { soh with v_min_cycle := voltage_V }
             else soh
  let soh := if voltage_V > soh.v_max_cycle then { soh with v_max_cycle := voltage_V }
             else soh
  let was_charging := soh.is_charging
  let soh := { soh with is_charging := decide (current_A > 0.05) }
  let soh :=
    if soh.is_charging = false ∧ current_A < -0.05 then
      { soh with discharged_Ah := soh.discharged_Ah + (-current_A) * dt_s / 3600.0 }
    else soh
  if was_charging = true ∧ soh.is_charging = false then
    let soh := { soh with v_min_cycle := voltage_V }
    { soh with v_max_cycle := voltage_V }
  else soh

def SOH_GetPercentage (soh : SOH_State) : ℚ := soh.soh_percent

def SOH_GetCapacityAh (soh : SOH_State) : ℚ := soh.capacity_est_Ah

/-! ## Call sequences

A state reachable from an initial state is the result of running a finite list
of calls on it. -/

/-- One call on a `BMS_State`: either function that mutates it, with its arguments. -/
inductive BMS_Call where
  | ecm_step (current dt : ℚ)
  | coulomb (current dt : ℚ)

def BMS_Call.run (expf : ℚ → ℚ) (state : BMS_State) : BMS_Call → BMS_State
  | .ecm_step current dt => BMS_ECM_Step expf state current dt
  | .coulomb current dt => BMS_UpdateCoulombCount state current dt

def BMS_run (expf : ℚ → ℚ) (state : BMS_State) (calls : List BMS_Call) : BMS_State :=
  calls.foldl (BMS_Call.run expf) state

/-- One call on an `EKF_State`. -/
inductive EKF_Call where
  | predict (current dt : ℚ)
  | update (v_measured current : ℚ)

def EKF_Call.run (expf : ℚ → ℚ) (ekf : EKF_State) : EKF_Call → EKF_State
  | .predict current dt => EKF_Predict expf ekf current dt
  | .update v_measured current => EKF_Update ekf v_measured current

def EKF_run (expf : ℚ → ℚ) (ekf : EKF_State) (calls : List EKF_Call) : EKF_State :=
  calls.foldl (EKF_Call.run expf) ekf

/-- One call on an `SOH_State`. -/
inductive SOH_Call where
  | update (current_A voltage_V dt_s : ℚ)
  | check (voltage : ℚ)

def SOH_Call.run (soh : SOH_State) : SOH_Call → SOH_State
  | .update current_A voltage_V dt_s => SOH_Update soh current_A voltage_V dt_s
  | .check voltage => (SOH_CheckCycleComplete soh voltage).1

def SOH_run (soh : SOH_State) (calls : List SOH_Call) : SOH_State :=
  calls.foldl SOH_Call.run soh

/-! ## Bit-level facts about the fault mask -/

theorem u8_not_two_pow (i : Nat) (hi : i < 8) : u8_not (2 ^ i) = (2 ^ 8 - 1) ^^^ 2 ^ i := by
  interval_cases i <;> decide

theorem set_bit_testBit (f i j : Nat) :
    ((f ||| 2 ^ i) % 2 ^ 8).testBit j
      = (decide (j < 8) && (f.testBit j || decide (i = j))) := by
  rw [Nat.testBit_mod_two_pow, Nat.testBit_or, Nat.testBit_two_pow]

theorem clear_bit_testBit (f i j : Nat) (hi : i < 8) :
    ((f &&& u8_not (2 ^ i)) % 2 ^ 8).testBit j
      = (decide (j < 8) && (f.testBit j && !decide (i = j))) := by
  rw [Nat.testBit_mod_two_pow, Nat.testBit_and, u8_not_two_pow i hi, Nat.testBit_xor,
    Nat.testBit_two_pow_sub_one, Nat.testBit_two_pow]
  by_cases h1 : j < 8 <;> by_cases h2 : i = j <;> simp [h1, h2]

theorem and_two_pow_ne_zero (x i : Nat) : x &&& 2 ^ i ≠ 0 ↔ x.testBit i = true := by
  rw [Nat.and_two_pow]
  cases h : x.testBit i <;> simp

/-- One `if (cond) set_fault(..) else clear_fault(..)` statement, bit by bit. -/
theorem fault_stmt_testBit (c : Prop) [Decidable c] (fsm : Safety_FSM) (i j : Nat)
    (hi : i < 8) :
    (if c then set_fault fsm (2 ^ i) else clear_fault fsm (2 ^ i)).fault_flags.testBit j
      = (decide (j < 8) && (if i = j then decide c else fsm.fault_flags.testBit j)) := by
  have h256 : (256 : Nat) = 2 ^ 8 := by norm_num
  by_cases hc : c
  · simp only [hc, if_true, set_fault, h256, set_bit_testBit]
    by_cases h2 : i = j <;> simp [h2]
  · simp only [hc, if_false, clear_fault, h256, clear_bit_testBit _ _ _ hi]
    by_cases h2 : i = j <;> simp [h2]

theorem detect_testBit (fsm : Safety_FSM) (voltage current temperature soc : ℚ) (j : Nat) :
    (Safety_Check_detect fsm voltage current temperature soc).fault_flags.testBit j
      = (decide (j < 8) &&
          (if j = 0 then decide (voltage > VOLTAGE_MAX)
           else if j = 1 then decide (voltage < VOLTAGE_MIN)
           else if j = 2 then decide (absf current > CURRENT_MAX)
           else if j = 3 then decide (temperature > TEMP_MAX)
           else if j = 4 then decide (temperature < TEMP_MIN)
           else if j = 5 then decide (soc ≤ SOC_MIN + 1e-6)
           else fsm.fault_flags.testBit j)) := by
  have e0 : FAULT_OVERVOLTAGE = 2 ^ 0 := rfl
  have e1 : FAULT_UNDERVOLTAGE = 2 ^ 1 := rfl
  have e2 : FAULT_OVERCURRENT = 2 ^ 2 := rfl
  have e3 : FAULT_OVERTEMP = 2 ^ 3 := rfl
  have e4 : FAULT_UNDERTEMP = 2 ^ 4 := rfl
  have e5 : FAULT_SOC_LOW = 2 ^ 5 := rfl
  unfold Safety_Check_detect
  simp only [e0, e1, e2, e3, e4, e5]
  rw [fault_stmt_testBit _ _ 5 j (by norm_num), fault_stmt_testBit _ _ 4 j (by norm_num),
    fault_stmt_testBit _ _ 3 j (by norm_num), fault_stmt_testBit _ _ 2 j (by norm_num),
    fault_stmt_testBit _ _ 1 j (by norm_num), fault_stmt_testBit _ _ 0 j (by norm_num)]
  by_cases h8 : j < 8
  · interval_cases j <;> simp
  · simp [h8]

theorem detect_frame (fsm : Safety_FSM) (voltage current temperature soc : ℚ) :
    Safety_Check_detect fsm voltage current temperature soc
      = { fsm with fault_flags :=
            (Safety_Check_detect fsm voltage current temperature soc).fault_flags } := by
  unfold Safety_Check_detect
  simp only []
  split_ifs <;> simp [set_fault, clear_fault]

theorem absf_eq_abs (x : ℚ) : absf x = |x| := by
  unfold absf
  split_ifs with h
  · exact (abs_of_neg h).symm
  · exact (abs_of_nonneg (not_lt.mp h)).symm

/-- The `switch` of `Safety_Check` never writes `fault_flags`. -/
theorem transition_fault_flags (fsm : Safety_FSM) (current : ℚ) :
    (Safety_Check_transition fsm current).fault_flags = fsm.fault_flags := by
  unfold Safety_Check_transition
  split_ifs <;> rfl

/-- With any fault bit set, every branch of the `switch` ends in `FAULT`. -/
theorem transition_of_faulty (fsm : Safety_FSM) (current : ℚ)
    (h : fsm.fault_flags ≠ FAULT_NONE) :
    (Safety_Check_transition fsm current).current_state = BMS_STATE_FAULT := by
  unfold Safety_Check_transition
  split_ifs <;> simp_all

theorem ne_zero_of_testBit {x j : Nat} (h : x.testBit j = true) : x ≠ 0 := by
  rintro rfl
  simp at h

/-- After detection the mask is zero exactly when no condition holds and the two
reserved bits were clear. -/
theorem detect_eq_zero_iff (fsm : Safety_FSM) (voltage current temperature soc : ℚ) :
    (Safety_Check_detect fsm voltage current temperature soc).fault_flags = 0 ↔
      (¬ voltage > VOLTAGE_MAX ∧ ¬ voltage < VOLTAGE_MIN ∧ ¬ absf current > CURRENT_MAX ∧
        ¬ temperature > TEMP_MAX ∧ ¬ temperature < TEMP_MIN ∧ ¬ soc ≤ SOC_MIN + 1e-6 ∧
        fsm.fault_flags.testBit 6 = false ∧ fsm.fault_flags.testBit 7 = false) := by
  constructor
  · intro h0
    have hb : ∀ j, (Safety_Check_detect fsm voltage current temperature soc).fault_flags.testBit j
        = false := by
      intro j
      rw [h0]
      simp
    have b0 := hb 0
    have b1 := hb 1
    have b2 := hb 2
    have b3 := hb 3
    have b4 := hb 4
    have b5 := hb 5
    have b6 := hb 6
    have b7 := hb 7
    rw [detect_testBit] at b0 b1 b2 b3 b4 b5 b6 b7
    simp at b0 b1 b2 b3 b4 b5 b6 b7
    simp only [not_lt, gt_iff_lt, not_le]
    exact ⟨b0, b1, b2, b3, b4, b5, b6, b7⟩
  · rintro ⟨h0, h1, h2, h3, h4, h5, h6, h7⟩
    apply Nat.zero_of_testBit_eq_false
    intro j
    rw [detect_testBit]
    by_cases h8 : j < 8
    · interval_cases j <;> simp [h0, h1, h2, h3, h4, h5, h6, h7]
    · simp [h8]

/-! ## Claims about the safety FSM -/

/-- C1: for every `Safety_FSM` value (any `current_state`, any prior `fault_flags`) and
every sample on which at least one fault condition holds, after `Safety_Check` the
state is `FAULT` and `Safety_IsOperationAllowed` returns false. -/
theorem C1_fault_condition_forces_FAULT (fsm : Safety_FSM)
    (voltage current temperature soc : ℚ)
    (h : voltage > 4.2 ∨ voltage < 2.7 ∨ |current| > 2.0 ∨ temperature > 45 ∨
      temperature < -10 ∨ soc ≤ SOC_MIN + 1e-6) :
    (Safety_Check fsm voltage current temperature soc).current_state = BMS_STATE_FAULT ∧
    Safety_IsOperationAllowed (Safety_Check fsm voltage current temperature soc) = false := by
  have hne : (Safety_Check_detect fsm voltage current temperature soc).fault_flags
      ≠ FAULT_NONE := by
    intro h0
    have hz := (detect_eq_zero_iff fsm voltage current temperature soc).mp h0
    obtain ⟨h0, h1, h2, h3, h4, h5, -, -⟩ := hz
    rw [absf_eq_abs] at h2
    simp only [VOLTAGE_MAX, VOLTAGE_MIN, CURRENT_MAX, TEMP_MAX, TEMP_MIN] at h0 h1 h2 h3 h4
    rcases h with h | h | h | h | h | h
    · exact h0 h
    · exact h1 h
    · exact h2 h
    · exact h3 (by norm_num at h ⊢; exact h)
    · exact h4 (by norm_num at h ⊢; exact h)
    · exact h5 h
  have hst := transition_of_faulty _ current hne
  refine ⟨hst, ?_⟩
  unfold Safety_IsOperationAllowed
  simp only [Safety_Check, hst]
  decide

theorem C1_fault_condition_forces_FAULT_witness :
    ((4.3 : ℚ) > 4.2 ∨ (4.3 : ℚ) < 2.7 ∨ |(0 : ℚ)| > 2.0 ∨ (25 : ℚ) > 45 ∨
      (25 : ℚ) < -10 ∨ (0.5 : ℚ) ≤ SOC_MIN + 1e-6) ∧
    (Safety_Check ⟨7, 0xC3, 0, 0, 2, 0, 0⟩ 4.3 0 25 0.5).current_state = BMS_STATE_FAULT ∧
    Safety_IsOperationAllowed (Safety_Check ⟨7, 0xC3, 0, 0, 2, 0, 0⟩ 4.3 0 25 0.5) = false :=
  ⟨Or.inl (by norm_num),
    C1_fault_condition_forces_FAULT ⟨7, 0xC3, 0, 0, 2, 0, 0⟩ 4.3 0 25 0.5
      (Or.inl (by norm_num))⟩

/-- C2: after `Safety_Check` each of the six monitored fault bits is set if and only
if its condition holds on the sample, whatever the prior `fault_flags` were, and the
SENSOR (0x40) and COMMS (0x80) bits keep their prior values. -/
theorem C2_fault_bits_follow_sample (fsm : Safety_FSM)
    (voltage current temperature soc : ℚ) :
    ((Safety_Check fsm voltage current temperature soc).fault_flags &&& FAULT_OVERVOLTAGE ≠ 0
      ↔ voltage > 4.2) ∧
    ((Safety_Check fsm voltage current temperature soc).fault_flags &&& FAULT_UNDERVOLTAGE ≠ 0
      ↔ voltage < 2.7) ∧
    ((Safety_Check fsm voltage current temperature soc).fault_flags &&& FAULT_OVERCURRENT ≠ 0
      ↔ |current| > 2.0) ∧
    ((Safety_Check fsm voltage current temperature soc).fault_flags &&& FAULT_OVERTEMP ≠ 0
      ↔ temperature > 45) ∧
    ((Safety_Check fsm voltage current temperature soc).fault_flags &&& FAULT_UNDERTEMP ≠ 0
      ↔ temperature < -10) ∧
    ((Safety_Check fsm voltage current temperature soc).fault_flags &&& FAULT_SOC_LOW ≠ 0
      ↔ soc ≤ SOC_MIN + 1e-6) ∧
    (Safety_Check fsm voltage current temperature soc).fault_flags &&& FAULT_SENSOR
      = fsm.fault_flags &&& FAULT_SENSOR ∧
    (Safety_Check fsm voltage current temperature soc).fault_flags &&& FAULT_COMMS
      = fsm.fault_flags &&& FAULT_COMMS := by
  have e0 : FAULT_OVERVOLTAGE = 2 ^ 0 := rfl
  have e1 : FAULT_UNDERVOLTAGE = 2 ^ 1 := rfl
  have e2 : FAULT_OVERCURRENT = 2 ^ 2 := rfl
  have e3 : FAULT_OVERTEMP = 2 ^ 3 := rfl
  have e4 : FAULT_UNDERTEMP = 2 ^ 4 := rfl
  have e5 : FAULT_SOC_LOW = 2 ^ 5 := rfl
  have e6 : FAULT_SENSOR = 2 ^ 6 := rfl
  have e7 : FAULT_COMMS = 2 ^ 7 := rfl
  simp only [Safety_Check, transition_fault_flags, e0, e1, e2, e3, e4, e5, e6, e7,
    and_two_pow_ne_zero, Nat.and_two_pow, detect_testBit, absf_eq_abs, VOLTAGE_MAX,
    VOLTAGE_MIN, CURRENT_MAX, TEMP_MAX, TEMP_MIN]
  norm_num

/-- A sample that violates no threshold, on a mask whose two reserved bits are clear,
leaves the mask empty: `Safety_Check` is then the `switch` run on an empty mask. -/
theorem check_of_clean (fsm : Safety_FSM) (voltage current temperature soc : ℚ)
    (hs : fsm.fault_flags &&& FAULT_SENSOR = 0) (hc : fsm.fault_flags &&& FAULT_COMMS = 0)
    (hv1 : voltage ≤ 4.2) (hv2 : 2.7 ≤ voltage) (hi : |current| ≤ 2.0)
    (ht1 : temperature ≤ 45) (ht2 : -10 ≤ temperature) (hsoc : SOC_MIN + 1e-6 < soc) :
    Safety_Check fsm voltage current temperature soc
      = Safety_Check_transition { fsm with fault_flags := 0 } current := by
  have e6 : FAULT_SENSOR = 2 ^ 6 := rfl
  have e7 : FAULT_COMMS = 2 ^ 7 := rfl
  have b6 : fsm.fault_flags.testBit 6 = false := by
    by_contra hb
    exact (and_two_pow_ne_zero _ 6).mpr (by simpa using hb) (by rw [← e6]; exact hs)
  have b7 : fsm.fault_flags.testBit 7 = false := by
    by_contra hb
    exact (and_two_pow_ne_zero _ 7).mpr (by simpa using hb) (by rw [← e7]; exact hc)
  have hz : (Safety_Check_detect fsm voltage current temperature soc).fault_flags = 0 := by
    rw [detect_eq_zero_iff, absf_eq_abs]
    simp only [VOLTAGE_MAX, VOLTAGE_MIN, CURRENT_MAX, TEMP_MAX, TEMP_MIN]
    refine ⟨not_lt.mpr hv1, not_lt.mpr hv2, not_lt.mpr hi, ?_, ?_, not_le.mpr hsoc, b6, b7⟩
    · norm_num; exact ht1
    · norm_num; exact ht2
  unfold Safety_Check
  rw [detect_frame, hz]

/-- The `switch` on an empty mask, state by state. -/
theorem transition_of_empty (fsm : Safety_FSM) (current : ℚ) (h0 : fsm.fault_flags = 0) :
    (fsm.current_state = BMS_STATE_INIT →
      Safety_Check_transition fsm current
        = { fsm with current_state := BMS_STATE_NORMAL
                     state_entry_time := fsm.current_time }) ∧
    (fsm.current_state = BMS_STATE_NORMAL ∨ fsm.current_state = BMS_STATE_CHARGING ∨
      fsm.current_state = BMS_STATE_DISCHARGING →
      Safety_Check_transition fsm current
        = { fsm with current_state :=
              if current > 0.05 then BMS_STATE_CHARGING
              else if current < -0.05 then BMS_STATE_DISCHARGING
              else BMS_STATE_NORMAL }) ∧
    (fsm.current_state = BMS_STATE_FAULT →
      Safety_Check_transition fsm current
        = { fsm with current_state := BMS_STATE_PROTECTION
                     protection_count := (fsm.protection_count + 1) % 2 ^ 32
                     state_entry_time := fsm.current_time }) ∧
    (fsm.current_state = BMS_STATE_PROTECTION →
      Safety_Check_transition fsm current
        = { fsm with current_state := BMS_STATE_NORMAL
                     state_entry_time := fsm.current_time }) := by
  refine ⟨?_, ?_, ?_, ?_⟩
  · intro h
    simp [Safety_Check_transition, h, h0, FAULT_NONE]
  · intro h
    have hne : fsm.current_state ≠ BMS_STATE_INIT := by
      rcases h with h | h | h <;> rw [h] <;> decide
    simp only [Safety_Check_transition, hne, h, h0, FAULT_NONE, if_true, if_false, ne_eq,
      not_true_eq_false]
    split_ifs <;> rfl
  · intro h
    simp [Safety_Check_transition, h, h0, FAULT_NONE, BMS_STATE_FAULT, BMS_STATE_INIT,
      BMS_STATE_NORMAL, BMS_STATE_CHARGING, BMS_STATE_DISCHARGING]
  · intro h
    simp [Safety_Check_transition, h, h0, FAULT_NONE, BMS_STATE_FAULT, BMS_STATE_INIT,
      BMS_STATE_NORMAL, BMS_STATE_CHARGING, BMS_STATE_DISCHARGING, BMS_STATE_PROTECTION]

theorem u8_not_flags :
    u8_not FAULT_OVERVOLTAGE = 254 ∧ u8_not FAULT_UNDERVOLTAGE = 253 ∧
    u8_not FAULT_OVERCURRENT = 251 ∧ u8_not FAULT_OVERTEMP = 247 ∧
    u8_not FAULT_UNDERTEMP = 239 ∧ u8_not FAULT_SOC_LOW = 223 := by
  decide

/-- The first check of the recovery scenario: an over-voltage sample right after
`Safety_Init`. -/
theorem scenario_first_check (z : Safety_FSM) :
    Safety_Check (Safety_Init z) 4.3 0 25 0.5 = ⟨BMS_STATE_FAULT, 1, 0, 0, 2, 0, 0⟩ := by
  obtain ⟨n0, n1, n2, n3, n4, n5⟩ := u8_not_flags
  norm_num [Safety_Check, Safety_Check_detect, Safety_Check_transition, Safety_Init,
    set_fault, clear_fault, n0, n1, n2, n3, n4, n5, absf, VOLTAGE_MAX, VOLTAGE_MIN,
    CURRENT_MAX, TEMP_MAX, TEMP_MIN, SOC_MIN, FAULT_NONE, BMS_STATE_INIT, BMS_STATE_FAULT,
    FAULT_OVERVOLTAGE]

/-- A clean check from `FAULT`: the whole resulting struct. -/
theorem check_clean_from_FAULT (fsm : Safety_FSM) (voltage current temperature soc : ℚ)
    (hst : fsm.current_state = BMS_STATE_FAULT)
    (hs : fsm.fault_flags &&& FAULT_SENSOR = 0) (hc : fsm.fault_flags &&& FAULT_COMMS = 0)
    (hv1 : voltage ≤ 4.2) (hv2 : 2.7 ≤ voltage) (hi : |current| ≤ 2.0)
    (ht1 : temperature ≤ 45) (ht2 : -10 ≤ temperature) (hsoc : SOC_MIN + 1e-6 < soc) :
    Safety_Check fsm voltage current temperature soc
      = { fsm with current_state := BMS_STATE_PROTECTION
                   fault_flags := 0
                   protection_count := (fsm.protection_count + 1) % 2 ^ 32
                   state_entry_time := fsm.current_time } := by
  rw [check_of_clean fsm voltage current temperature soc hs hc hv1 hv2 hi ht1 ht2 hsoc]
  exact (transition_of_empty { fsm with fault_flags := 0 } current rfl).2.2.1 hst

/-- A clean check from `PROTECTION` or `INIT`: the whole resulting struct. -/
theorem check_clean_from_PROTECTION (fsm : Safety_FSM) (voltage current temperature soc : ℚ)
    (hst : fsm.current_state = BMS_STATE_INIT ∨ fsm.current_state = BMS_STATE_PROTECTION)
    (hs : fsm.fault_flags &&& FAULT_SENSOR = 0) (hc : fsm.fault_flags &&& FAULT_COMMS = 0)
    (hv1 : voltage ≤ 4.2) (hv2 : 2.7 ≤ voltage) (hi : |current| ≤ 2.0)
    (ht1 : temperature ≤ 45) (ht2 : -10 ≤ temperature) (hsoc : SOC_MIN + 1e-6 < soc) :
    Safety_Check fsm voltage current temperature soc
      = { fsm with current_state := BMS_STATE_NORMAL
                   fault_flags := 0
                   state_entry_time := fsm.current_time } := by
  rw [check_of_clean fsm voltage current temperature soc hs hc hv1 hv2 hi ht1 ht2 hsoc]
  rcases hst with hst | hst
  · exact (transition_of_empty { fsm with fault_flags := 0 } current rfl).1 hst
  · exact (transition_of_empty { fsm with fault_flags := 0 } current rfl).2.2.2 hst

/-- A clean check from one of the three operating states: the whole resulting struct. -/
theorem check_clean_from_operating (fsm : Safety_FSM) (voltage current temperature soc : ℚ)
    (hst : fsm.current_state = BMS_STATE_NORMAL ∨ fsm.current_state = BMS_STATE_CHARGING ∨
      fsm.current_state = BMS_STATE_DISCHARGING)
    (hs : fsm.fault_flags &&& FAULT_SENSOR = 0) (hc : fsm.fault_flags &&& FAULT_COMMS = 0)
    (hv1 : voltage ≤ 4.2) (hv2 : 2.7 ≤ voltage) (hi : |current| ≤ 2.0)
    (ht1 : temperature ≤ 45) (ht2 : -10 ≤ temperature) (hsoc : SOC_MIN + 1e-6 < soc) :
    Safety_Check fsm voltage current temperature soc
      = { fsm with fault_flags := 0
                   current_state :=
                     if current > 0.05 then BMS_STATE_CHARGING
                     else if current < -0.05 then BMS_STATE_DISCHARGING
                     else BMS_STATE_NORMAL } := by
  rw [check_of_clean fsm voltage current temperature soc hs hc hv1 hv2 hi ht1 ht2 hsoc]
  exact (transition_of_empty { fsm with fault_flags := 0 } current rfl).2.1 hst

/-- C3 (as stated, refuted): a `Safety_FSM` in state `FAULT` with an empty mask and
`protection_count = 4294967295` receives a fault-free sample; `Safety_Check` moves it
to `PROTECTION` but the 32-bit counter wraps to 0 instead of increasing by 1. -/
theorem C3_protection_count_wraps :
    (⟨BMS_STATE_FAULT, 0, 0, 4294967295, 2, 0, 0⟩ : Safety_FSM).current_state
      = BMS_STATE_FAULT ∧
    (⟨BMS_STATE_FAULT, 0, 0, 4294967295, 2, 0, 0⟩ : Safety_FSM).fault_flags &&& FAULT_SENSOR
      = 0 ∧
    (⟨BMS_STATE_FAULT, 0, 0, 4294967295, 2, 0, 0⟩ : Safety_FSM).fault_flags &&& FAULT_COMMS
      = 0 ∧
    ((3.7 : ℚ) ≤ 4.2 ∧ (2.7 : ℚ) ≤ 3.7 ∧ |(0 : ℚ)| ≤ 2.0 ∧ (25 : ℚ) ≤ 45 ∧ (-10 : ℚ) ≤ 25 ∧
      SOC_MIN + 1e-6 < (0.5 : ℚ)) ∧
    (Safety_Check ⟨BMS_STATE_FAULT, 0, 0, 4294967295, 2, 0, 0⟩ 3.7 0 25 0.5).current_state
      = BMS_STATE_PROTECTION ∧
    (Safety_Check ⟨BMS_STATE_FAULT, 0, 0, 4294967295, 2, 0, 0⟩ 3.7 0 25 0.5).protection_count
      = 0 ∧
    (Safety_Check ⟨BMS_STATE_FAULT, 0, 0, 4294967295, 2, 0, 0⟩ 3.7 0 25 0.5).protection_count
      ≠ 4294967295 + 1 := by
  have hclean : (3.7 : ℚ) ≤ 4.2 ∧ (2.7 : ℚ) ≤ 3.7 ∧ |(0 : ℚ)| ≤ 2.0 ∧ (25 : ℚ) ≤ 45 ∧
      (-10 : ℚ) ≤ 25 ∧ SOC_MIN + 1e-6 < (0.5 : ℚ) := by
    norm_num [SOC_MIN]
  obtain ⟨a1, a2, a3, a4, a5, a6⟩ := hclean
  have hr := check_clean_from_FAULT ⟨BMS_STATE_FAULT, 0, 0, 4294967295, 2, 0, 0⟩ 3.7 0 25 0.5
    rfl (by decide) (by decide) a1 a2 a3 a4 a5 a6
  rw [hr]
  exact ⟨rfl, by decide, by decide, ⟨a1, a2, a3, a4, a5, a6⟩, rfl, by norm_num, by norm_num⟩

/-- C3 (amended): from `FAULT` with the SENSOR and COMMS bits clear, a fault-free
sample moves the FSM to `PROTECTION` and sets `protection_count` to its successor
modulo 2^32 (an increase by exactly 1 unless the counter was 4294967295); a second
fault-free sample then moves it to `NORMAL` and leaves `protection_count` unchanged.
Scenario: `Safety_Init`, Check(4.3, 0, 25, 0.5) gives `FAULT` with the OVERVOLTAGE bit
set, Check(3.7, 0, 25, 0.5) gives `PROTECTION` with `fault_flags = 0` and
`protection_count = 1`, and one more clean check gives `NORMAL`. -/
theorem C3_recovery_through_PROTECTION (fsm : Safety_FSM)
    (voltage current temperature soc voltage2 current2 temperature2 soc2 : ℚ)
    (hst : fsm.current_state = BMS_STATE_FAULT)
    (hs : fsm.fault_flags &&& FAULT_SENSOR = 0) (hc : fsm.fault_flags &&& FAULT_COMMS = 0)
    (hv1 : voltage ≤ 4.2) (hv2 : 2.7 ≤ voltage) (hi : |current| ≤ 2.0)
    (ht1 : temperature ≤ 45) (ht2 : -10 ≤ temperature) (hsoc : SOC_MIN + 1e-6 < soc)
    (kv1 : voltage2 ≤ 4.2) (kv2 : 2.7 ≤ voltage2) (ki : |current2| ≤ 2.0)
    (kt1 : temperature2 ≤ 45) (kt2 : -10 ≤ temperature2) (ksoc : SOC_MIN + 1e-6 < soc2) :
    (Safety_Check fsm voltage current temperature soc).current_state
      = BMS_STATE_PROTECTION ∧
    (Safety_Check fsm voltage current temperature soc).protection_count
      = (fsm.protection_count + 1) % 2 ^ 32 ∧
    (fsm.protection_count < 2 ^ 32 - 1 →
      (Safety_Check fsm voltage current temperature soc).protection_count
        = fsm.protection_count + 1) ∧
    (Safety_Check (Safety_Check fsm voltage current temperature soc)
      voltage2 current2 temperature2 soc2).current_state = BMS_STATE_NORMAL ∧
    (Safety_Check (Safety_Check fsm voltage current temperature soc)
      voltage2 current2 temperature2 soc2).protection_count
      = (Safety_Check fsm voltage current temperature soc).protection_count ∧
    (∀ z : Safety_FSM,
      (Safety_Check (Safety_Init z) 4.3 0 25 0.5).current_state = BMS_STATE_FAULT ∧
      (Safety_Check (Safety_Init z) 4.3 0 25 0.5).fault_flags &&& FAULT_OVERVOLTAGE ≠ 0 ∧
      (Safety_Check (Safety_Check (Safety_Init z) 4.3 0 25 0.5) 3.7 0 25 0.5).current_state
        = BMS_STATE_PROTECTION ∧
      (Safety_Check (Safety_Check (Safety_Init z) 4.3 0 25 0.5) 3.7 0 25 0.5).fault_flags
        = 0 ∧
      (Safety_Check (Safety_Check (Safety_Init z) 4.3 0 25 0.5) 3.7 0 25 0.5).protection_count
        = 1 ∧
      (Safety_Check (Safety_Check (Safety_Check (Safety_Init z) 4.3 0 25 0.5) 3.7 0 25 0.5)
        3.7 0 25 0.5).current_state = BMS_STATE_NORMAL) := by
  have hr := check_clean_from_FAULT fsm voltage current temperature soc hst hs hc
    hv1 hv2 hi ht1 ht2 hsoc
  have hr2 := check_clean_from_PROTECTION (Safety_Check fsm voltage current temperature soc)
    voltage2 current2 temperature2 soc2 (Or.inr (by rw [hr])) (by rw [hr]; exact Nat.zero_and _)
    (by rw [hr]; exact Nat.zero_and _) kv1 kv2 ki kt1 kt2 ksoc
  refine ⟨by rw [hr], by rw [hr], ?_, by rw [hr2], by rw [hr2], ?_⟩
  · intro hlt
    rw [hr]
    exact Nat.mod_eq_of_lt (by omega)
  · intro z
    have hclean : (3.7 : ℚ) ≤ 4.2 ∧ (2.7 : ℚ) ≤ 3.7 ∧ |(0 : ℚ)| ≤ 2.0 ∧ (25 : ℚ) ≤ 45 ∧
        (-10 : ℚ) ≤ 25 ∧ SOC_MIN + 1e-6 < (0.5 : ℚ) := by
      norm_num [SOC_MIN]
    obtain ⟨a1, a2, a3, a4, a5, a6⟩ := hclean
    have s1 := scenario_first_check z
    have s2 := check_clean_from_FAULT ⟨BMS_STATE_FAULT, 1, 0, 0, 2, 0, 0⟩ 3.7 0 25 0.5
      rfl (by decide) (by decide) a1 a2 a3 a4 a5 a6
    have s3 := check_clean_from_PROTECTION
      (Safety_Check ⟨BMS_STATE_FAULT, 1, 0, 0, 2, 0, 0⟩ 3.7 0 25 0.5) 3.7 0 25 0.5
      (Or.inr (by rw [s2])) (by rw [s2]; exact Nat.zero_and _)
      (by rw [s2]; exact Nat.zero_and _) a1 a2 a3 a4 a5 a6
    rw [s1]
    refine ⟨rfl, by decide, by rw [s2], by rw [s2], by rw [s2]; rfl, by rw [s3]⟩

theorem C3_recovery_through_PROTECTION_witness :
    (Safety_Check ⟨BMS_STATE_FAULT, 1, 0, 41, 2, 0, 9⟩ 3.7 0 25 0.5).current_state
      = BMS_STATE_PROTECTION ∧
    (Safety_Check ⟨BMS_STATE_FAULT, 1, 0, 41, 2, 0, 9⟩ 3.7 0 25 0.5).protection_count
      = 41 + 1 ∧
    (Safety_Check (Safety_Check ⟨BMS_STATE_FAULT, 1, 0, 41, 2, 0, 9⟩ 3.7 0 25 0.5)
      3.6 (-1) 20 0.4).current_state = BMS_STATE_NORMAL := by
  have h := C3_recovery_through_PROTECTION ⟨BMS_STATE_FAULT, 1, 0, 41, 2, 0, 9⟩
    3.7 0 25 0.5 3.6 (-1) 20 0.4 rfl (by decide) (by decide)
    (by norm_num) (by norm_num) (by norm_num) (by norm_num) (by norm_num)
    (by norm_num [SOC_MIN]) (by norm_num) (by norm_num) (by norm_num [abs_of_neg])
    (by norm_num) (by norm_num) (by norm_num [SOC_MIN])
  exact ⟨h.1, h.2.2.1 (by norm_num), h.2.2.2.1⟩

/-- C4: `Safety_IsOperationAllowed` is true exactly when the state is not `FAULT`
(so it is true in `PROTECTION`); and for a `Safety_FSM` in one of the six named
states with the SENSOR and COMMS bits clear, a sample that violates no threshold
gives `NORMAL` from `INIT` or `PROTECTION`, `PROTECTION` from `FAULT`, and from
`NORMAL`/`CHARGING`/`DISCHARGING` gives `CHARGING` if current > 0.05, `DISCHARGING`
if current < -0.05 and `NORMAL` otherwise; operation is allowed afterwards. -/
theorem C4_clean_sample_keeps_operation_allowed (fsm : Safety_FSM)
    (voltage current temperature soc : ℚ)
    (hnamed : fsm.current_state = BMS_STATE_INIT ∨ fsm.current_state = BMS_STATE_NORMAL ∨
      fsm.current_state = BMS_STATE_CHARGING ∨ fsm.current_state = BMS_STATE_DISCHARGING ∨
      fsm.current_state = BMS_STATE_FAULT ∨ fsm.current_state = BMS_STATE_PROTECTION)
    (hs : fsm.fault_flags &&& FAULT_SENSOR = 0) (hc : fsm.fault_flags &&& FAULT_COMMS = 0)
    (hv1 : voltage ≤ 4.2) (hv2 : 2.7 ≤ voltage) (hi : |current| ≤ 2.0)
    (ht1 : temperature ≤ 45) (ht2 : -10 ≤ temperature) (hsoc : SOC_MIN + 1e-6 < soc) :
    (∀ g : Safety_FSM,
      Safety_IsOperationAllowed g = true ↔ g.current_state ≠ BMS_STATE_FAULT) ∧
    (∀ g : Safety_FSM, g.current_state = BMS_STATE_PROTECTION →
      Safety_IsOperationAllowed g = true) ∧
    (fsm.current_state = BMS_STATE_INIT ∨ fsm.current_state = BMS_STATE_PROTECTION →
      (Safety_Check fsm voltage current temperature soc).current_state
        = BMS_STATE_NORMAL) ∧
    (fsm.current_state = BMS_STATE_FAULT →
      (Safety_Check fsm voltage current temperature soc).current_state
        = BMS_STATE_PROTECTION) ∧
    (fsm.current_state = BMS_STATE_NORMAL ∨ fsm.current_state = BMS_STATE_CHARGING ∨
      fsm.current_state = BMS_STATE_DISCHARGING →
      (current > 0.05 →
        (Safety_Check fsm voltage current temperature soc).current_state
          = BMS_STATE_CHARGING) ∧
      (current < -0.05 →
        (Safety_Check fsm voltage current temperature soc).current_state
          = BMS_STATE_DISCHARGING) ∧
      (¬ current > 0.05 → ¬ current < -0.05 →
        (Safety_Check fsm voltage current temperature soc).current_state
          = BMS_STATE_NORMAL)) ∧
    Safety_IsOperationAllowed (Safety_Check fsm voltage current temperature soc) = true := by
  have hallow : ∀ g : Safety_FSM,
      Safety_IsOperationAllowed g = true ↔ g.current_state ≠ BMS_STATE_FAULT := by
    intro g
    simp [Safety_IsOperationAllowed]
  have hA := check_clean_from_PROTECTION fsm voltage current temperature soc
  have hB := check_clean_from_FAULT fsm voltage current temperature soc
  have hC := check_clean_from_operating fsm voltage current temperature soc
  refine ⟨hallow, ?_, ?_, ?_, ?_, ?_⟩
  · intro g hg
    rw [hallow, hg]
    decide
  · intro h
    rw [hA h hs hc hv1 hv2 hi ht1 ht2 hsoc]
  · intro h
    rw [hB h hs hc hv1 hv2 hi ht1 ht2 hsoc]
  · intro h
    rw [hC h hs hc hv1 hv2 hi ht1 ht2 hsoc]
    refine ⟨?_, ?_, ?_⟩
    · intro h1
      simp [h1]
    · intro h2
      have h1 : ¬ current > 0.05 := by
        intro h1
        have : (0.05 : ℚ) < -0.05 := lt_trans h1 h2
        norm_num at this
      simp [h1, h2]
    · intro h1 h2
      simp [h1, h2]
  · rw [hallow]
    rcases hnamed with h | h | h | h | h | h
    · rw [hA (Or.inl h) hs hc hv1 hv2 hi ht1 ht2 hsoc]
      show BMS_STATE_NORMAL ≠ BMS_STATE_FAULT
      decide
    · rw [hC (Or.inl h) hs hc hv1 hv2 hi ht1 ht2 hsoc]
      show (if current > 0.05 then BMS_STATE_CHARGING
        else if current < -0.05 then BMS_STATE_DISCHARGING else BMS_STATE_NORMAL)
        ≠ BMS_STATE_FAULT
      split_ifs <;> decide
    · rw [hC (Or.inr (Or.inl h)) hs hc hv1 hv2 hi ht1 ht2 hsoc]
      show (if current > 0.05 then BMS_STATE_CHARGING
        else if current < -0.05 then BMS_STATE_DISCHARGING else BMS_STATE_NORMAL)
        ≠ BMS_STATE_FAULT
      split_ifs <;> decide
    · rw [hC (Or.inr (Or.inr h)) hs hc hv1 hv2 hi ht1 ht2 hsoc]
      show (if current > 0.05 then BMS_STATE_CHARGING
        else if current < -0.05 then BMS_STATE_DISCHARGING else BMS_STATE_NORMAL)
        ≠ BMS_STATE_FAULT
      split_ifs <;> decide
    · rw [hB h hs hc hv1 hv2 hi ht1 ht2 hsoc]
      show BMS_STATE_PROTECTION ≠ BMS_STATE_FAULT
      decide
    · rw [hA (Or.inr h) hs hc hv1 hv2 hi ht1 ht2 hsoc]
      show BMS_STATE_NORMAL ≠ BMS_STATE_FAULT
      decide

theorem C4_clean_sample_keeps_operation_allowed_witness :
    (Safety_Check ⟨BMS_STATE_NORMAL, 0x21, 3, 1, 2, 5, 8⟩ 3.9 (-1.5) 30 0.6).current_state
      = BMS_STATE_DISCHARGING ∧
    Safety_IsOperationAllowed
      (Safety_Check ⟨BMS_STATE_NORMAL, 0x21, 3, 1, 2, 5, 8⟩ 3.9 (-1.5) 30 0.6) = true := by
  have h := C4_clean_sample_keeps_operation_allowed
    ⟨BMS_STATE_NORMAL, 0x21, 3, 1, 2, 5, 8⟩ 3.9 (-1.5) 30 0.6
    (Or.inr (Or.inl rfl)) (by decide) (by decide)
    (by norm_num) (by norm_num) (by norm_num [abs_of_neg]) (by norm_num) (by norm_num)
    (by norm_num [SOC_MIN])
  exact ⟨(h.2.2.2.2.1 (Or.inl rfl)).2.1 (by norm_num), h.2.2.2.2.2⟩

theorem getFaultString_testBit (f : Nat) :
    Safety_GetFaultString f =
      if f = 0 then "NONE"
      else if f.testBit 0 = true then "OVERVOLTAGE"
      else if f.testBit 1 = true then "UNDERVOLTAGE"
      else if f.testBit 2 = true then "OVERCURRENT"
      else if f.testBit 3 = true then "OVERTEMP"
      else if f.testBit 4 = true then "UNDERTEMP"
      else if f.testBit 5 = true then "SOC_LOW"
      else if f.testBit 6 = true then "SENSOR"
      else if f.testBit 7 = true then "COMMS"
      else "UNKNOWN" := by
  have e0 : FAULT_OVERVOLTAGE = 2 ^ 0 := rfl
  have e1 : FAULT_UNDERVOLTAGE = 2 ^ 1 := rfl
  have e2 : FAULT_OVERCURRENT = 2 ^ 2 := rfl
  have e3 : FAULT_OVERTEMP = 2 ^ 3 := rfl
  have e4 : FAULT_UNDERTEMP = 2 ^ 4 := rfl
  have e5 : FAULT_SOC_LOW = 2 ^ 5 := rfl
  have e6 : FAULT_SENSOR = 2 ^ 6 := rfl
  have e7 : FAULT_COMMS = 2 ^ 7 := rfl
  unfold Safety_GetFaultString
  simp only [e0, e1, e2, e3, e4, e5, e6, e7, and_two_pow_ne_zero, FAULT_NONE]

/-- A non-zero 8-bit value has one of its eight bits set. -/
theorem exists_bit_of_ne_zero (f : Nat) (hf : f < 256) (h0 : f ≠ 0) :
    f.testBit 0 = true ∨ f.testBit 1 = true ∨ f.testBit 2 = true ∨ f.testBit 3 = true ∨
    f.testBit 4 = true ∨ f.testBit 5 = true ∨ f.testBit 6 = true ∨ f.testBit 7 = true := by
  by_contra hcon
  simp only [not_or, Bool.not_eq_true] at hcon
  obtain ⟨b0, b1, b2, b3, b4, b5, b6, b7⟩ := hcon
  apply h0
  apply Nat.zero_of_testBit_eq_false
  intro j
  by_cases h8 : j < 8
  · interval_cases j <;> assumption
  · apply Nat.testBit_lt_two_pow
    calc f < 2 ^ 8 := by simpa using hf
      _ ≤ 2 ^ j := Nat.pow_le_pow_right (by norm_num) (not_lt.mp h8)

/-- C5: for every 8-bit mask, `Safety_GetFaultString` returns "NONE" at 0 and
otherwise the name of the lowest-numbered set bit (bit 0 OVERVOLTAGE, bit 1
UNDERVOLTAGE, bit 2 OVERCURRENT, bit 3 OVERTEMP, bit 4 UNDERTEMP, bit 5 SOC_LOW,
bit 6 SENSOR, bit 7 COMMS); "UNKNOWN" is returned for no 8-bit input. -/
theorem C5_fault_string_lowest_set_bit (f : Nat) (hf : f < 256) :
    (f = 0 → Safety_GetFaultString f = "NONE") ∧
    (f.testBit 0 = true → Safety_GetFaultString f = "OVERVOLTAGE") ∧
    (f.testBit 0 = false → f.testBit 1 = true →
      Safety_GetFaultString f = "UNDERVOLTAGE") ∧
    (f.testBit 0 = false → f.testBit 1 = false → f.testBit 2 = true →
      Safety_GetFaultString f = "OVERCURRENT") ∧
    (f.testBit 0 = false → f.testBit 1 = false → f.testBit 2 = false →
      f.testBit 3 = true → Safety_GetFaultString f = "OVERTEMP") ∧
    (f.testBit 0 = false → f.testBit 1 = false → f.testBit 2 = false →
      f.testBit 3 = false → f.testBit 4 = true →
      Safety_GetFaultString f = "UNDERTEMP") ∧
    (f.testBit 0 = false → f.testBit 1 = false → f.testBit 2 = false →
      f.testBit 3 = false → f.testBit 4 = false → f.testBit 5 = true →
      Safety_GetFaultString f = "SOC_LOW") ∧
    (f.testBit 0 = false → f.testBit 1 = false → f.testBit 2 = false →
      f.testBit 3 = false → f.testBit 4 = false → f.testBit 5 = false →
      f.testBit 6 = true → Safety_GetFaultString f = "SENSOR") ∧
    (f.testBit 0 = false → f.testBit 1 = false → f.testBit 2 = false →
      f.testBit 3 = false → f.testBit 4 = false → f.testBit 5 = false →
      f.testBit 6 = false → f.testBit 7 = true → Safety_GetFaultString f = "COMMS") ∧
    Safety_GetFaultString f ≠ "UNKNOWN" := by
  rw [getFaultString_testBit]
  refine ⟨?_, ?_, ?_, ?_, ?_, ?_, ?_, ?_, ?_, ?_⟩
  · intro h; simp [h]
  · intro h0; simp [ne_zero_of_testBit h0, h0]
  · intro h0 h1; simp [ne_zero_of_testBit h1, h0, h1]
  · intro h0 h1 h2; simp [ne_zero_of_testBit h2, h0, h1, h2]
  · intro h0 h1 h2 h3; simp [ne_zero_of_testBit h3, h0, h1, h2, h3]
  · intro h0 h1 h2 h3 h4; simp [ne_zero_of_testBit h4, h0, h1, h2, h3, h4]
  · intro h0 h1 h2 h3 h4 h5; simp [ne_zero_of_testBit h5, h0, h1, h2, h3, h4, h5]
  · intro h0 h1 h2 h3 h4 h5 h6; simp [ne_zero_of_testBit h6, h0, h1, h2, h3, h4, h5, h6]
  · intro h0 h1 h2 h3 h4 h5 h6 h7
    simp [ne_zero_of_testBit h7, h0, h1, h2, h3, h4, h5, h6, h7]
  · by_cases hz : f = 0
    · simp [hz]
    · have hb := exists_bit_of_ne_zero f hf hz
      split_ifs <;> first | decide | (exfalso; simp_all)

theorem C5_fault_string_lowest_set_bit_witness :
    (0x28 : Nat) < 256 ∧ Safety_GetFaultString 0x28 = "OVERTEMP" ∧
    Safety_GetFaultString 0x28 ≠ "UNKNOWN" :=
  ⟨by norm_num,
    (C5_fault_string_lowest_set_bit 0x28 (by norm_num)).2.2.2.2.1
      (by decide) (by decide) (by decide) (by decide),
    (C5_fault_string_lowest_set_bit 0x28 (by norm_num)).2.2.2.2.2.2.2.2.2⟩

/-! ## Facts about the SOC update -/

theorem zero_lit : (0.0 : ℚ) = 0 := by norm_num

theorem clampf_mem (x : ℚ) : 0 ≤ clampf x SOC_MIN SOC_MAX ∧ clampf x SOC_MIN SOC_MAX ≤ 1 := by
  unfold clampf SOC_MIN SOC_MAX
  split_ifs with h1 h2
  · norm_num
  · norm_num
  · norm_num at h1 h2 ⊢
    exact ⟨h1, h2⟩

theorem clampf_of_mem (x : ℚ) (h0 : 0 ≤ x) (h1 : x ≤ 1) : clampf x SOC_MIN SOC_MAX = x := by
  unfold clampf SOC_MIN SOC_MAX
  have a : ¬ x < 0.0 := by norm_num; exact h0
  have b : ¬ x > 1.0 := by norm_num; exact h1
  simp only [a, b, if_false]

theorem capacity_guard : NOMINAL_CAPACITY * 3600.0 > (1e-12 : ℚ) := by
  norm_num [NOMINAL_CAPACITY]

/-- The SOC written by `BMS_ECM_Step` when the timestep is positive. -/
theorem ecm_step_soc (expf : ℚ → ℚ) (state : BMS_State) (current dt : ℚ) (hdt : 0 < dt) :
    (BMS_ECM_Step expf state current dt).soc
      = clampf (state.soc + current * dt / (NOMINAL_CAPACITY * 3600.0)) SOC_MIN SOC_MAX := by
  have hd : ¬ dt ≤ 0.0 := by rw [zero_lit]; exact not_le.mpr hdt
  unfold BMS_ECM_Step
  simp only [hd, if_false, capacity_guard, if_true]
  unfold clampf SOC_MIN SOC_MAX
  by_cases h1 : state.soc + current * dt / (NOMINAL_CAPACITY * 3600.0) < 0.0
  · simp only [h1, if_true]
    norm_num
  · simp only [h1, if_false]
    split_ifs <;> rfl

theorem coulomb_soc (state : BMS_State) (current dt : ℚ) (hdt : 0 < dt) :
    (BMS_UpdateCoulombCount state current dt).soc
      = clampf (state.soc + current * dt / (NOMINAL_CAPACITY * 3600.0)) SOC_MIN SOC_MAX := by
  have hd : ¬ dt ≤ 0.0 := by rw [zero_lit]; exact not_le.mpr hdt
  unfold BMS_UpdateCoulombCount
  simp only [hd, if_false, capacity_guard, if_true]

theorem predict_soc (expf : ℚ → ℚ) (ekf : EKF_State) (current dt : ℚ) (hdt : 0 < dt) :
    (EKF_Predict expf ekf current dt).soc
      = clampf (ekf.soc + current * dt / (NOMINAL_CAPACITY * 3600.0)) SOC_MIN SOC_MAX := by
  have hd : ¬ dt ≤ 0.0 := by rw [zero_lit]; exact not_le.mpr hdt
  unfold EKF_Predict
  simp only [hd, if_false, capacity_guard, if_true]

theorem nonpositive_dt_noop (expf : ℚ → ℚ) (dt : ℚ) (hdt : dt ≤ 0) :
    (∀ (state : BMS_State) (current : ℚ), BMS_ECM_Step expf state current dt = state) ∧
    (∀ (state : BMS_State) (current : ℚ), BMS_UpdateCoulombCount state current dt = state) ∧
    (∀ (ekf : EKF_State) (current : ℚ), EKF_Predict expf ekf current dt = ekf) ∧
    (∀ (soh : SOH_State) (current voltage : ℚ), SOH_Update soh current voltage dt = soh) := by
  have hd : dt ≤ 0.0 := by rw [zero_lit]; exact hdt
  refine ⟨?_, ?_, ?_, ?_⟩
  · intro state current
    unfold BMS_ECM_Step
    simp only [hd, if_true]
  · intro state current
    unfold BMS_UpdateCoulombCount
    simp only [hd, if_true]
  · intro ekf current
    unfold EKF_Predict
    simp only [hd, if_true]
  · intro soh current voltage
    unfold SOH_Update
    simp only [hd, if_true]

theorem update_soc_mem (ekf : EKF_State) (v_measured current : ℚ) :
    0 ≤ (EKF_Update ekf v_measured current).soc ∧
    (EKF_Update ekf v_measured current).soc ≤ 1 := by
  unfold EKF_Update
  exact clampf_mem _

theorem bms_call_soc_mem (expf : ℚ → ℚ) (state : BMS_State) (call : BMS_Call)
    (h : 0 ≤ state.soc ∧ state.soc ≤ 1) :
    0 ≤ (call.run expf state).soc ∧ (call.run expf state).soc ≤ 1 := by
  cases call with
  | ecm_step current dt =>
    by_cases hdt : 0 < dt
    · simp only [BMS_Call.run, ecm_step_soc expf state current dt hdt]
      exact clampf_mem _
    · simp only [BMS_Call.run, (nonpositive_dt_noop expf dt (not_lt.mp hdt)).1]
      exact h
  | coulomb current dt =>
    by_cases hdt : 0 < dt
    · simp only [BMS_Call.run, coulomb_soc state current dt hdt]
      exact clampf_mem _
    · simp only [BMS_Call.run, (nonpositive_dt_noop expf dt (not_lt.mp hdt)).2.1]
      exact h

theorem ekf_call_soc_mem (expf : ℚ → ℚ) (ekf : EKF_State) (call : EKF_Call)
    (h : 0 ≤ ekf.soc ∧ ekf.soc ≤ 1) :
    0 ≤ (call.run expf ekf).soc ∧ (call.run expf ekf).soc ≤ 1 := by
  cases call with
  | predict current dt =>
    by_cases hdt : 0 < dt
    · simp only [EKF_Call.run, predict_soc expf ekf current dt hdt]
      exact clampf_mem _
    · simp only [EKF_Call.run, (nonpositive_dt_noop expf dt (not_lt.mp hdt)).2.2.1]
      exact h
  | update v_measured current =>
    exact update_soc_mem ekf v_measured current

theorem bms_run_soc_mem (expf : ℚ → ℚ) (calls : List BMS_Call) :
    ∀ state : BMS_State, 0 ≤ state.soc ∧ state.soc ≤ 1 →
      0 ≤ (BMS_run expf state calls).soc ∧ (BMS_run expf state calls).soc ≤ 1 := by
  induction calls with
  | nil => intro state h; exact h
  | cons call rest ih =>
    intro state h
    exact ih (call.run expf state) (bms_call_soc_mem expf state call h)

theorem ekf_run_soc_mem (expf : ℚ → ℚ) (calls : List EKF_Call) :
    ∀ ekf : EKF_State, 0 ≤ ekf.soc ∧ ekf.soc ≤ 1 →
      0 ≤ (EKF_run expf ekf calls).soc ∧ (EKF_run expf ekf calls).soc ≤ 1 := by
  induction calls with
  | nil => intro ekf h; exact h
  | cons call rest ih =>
    intro ekf h
    exact ih (call.run expf ekf) (ekf_call_soc_mem expf ekf call h)

/-- Repeating a step whose SOC update is `soc ← clampf(soc + d)`: as long as no
partial sum leaves [0,1] the clamp never acts and the SOC after `k` steps is
`soc + k * d`. -/
theorem iterate_soc_no_clamp (f : BMS_State → BMS_State) (d : ℚ)
    (hf : ∀ s : BMS_State, (f s).soc = clampf (s.soc + d) SOC_MIN SOC_MAX) :
    ∀ (k : Nat) (state : BMS_State),
      (∀ j : Nat, j ≤ k → 0 ≤ state.soc + j * d ∧ state.soc + j * d ≤ 1) →
      (f^[k] state).soc = state.soc + k * d := by
  intro k
  induction k with
  | zero =>
    intro state _
    simp
  | succ k ih =>
    intro state hb
    have hk := ih state (fun j hj => hb j (Nat.le_succ_of_le hj))
    have hlast := hb (k + 1) (Nat.le_refl _)
    rw [Function.iterate_succ_apply', hf, hk]
    have e : state.soc + (k : ℚ) * d + d = state.soc + ((k + 1 : Nat) : ℚ) * d := by
      push_cast
      ring
    rw [e]
    exact clampf_of_mem _ hlast.1 hlast.2

/-- Charging for `n` steps and discharging for `n` steps with a step rule
`soc ← clampf(soc + current * dt / capacity)` returns the SOC to its start when the
charge never reaches the upper clamp. -/
theorem round_trip_of_step (f g : BMS_State → BMS_State) (d : ℚ) (hd : 0 ≤ d)
    (hf : ∀ s : BMS_State, (f s).soc = clampf (s.soc + d) SOC_MIN SOC_MAX)
    (hg : ∀ s : BMS_State, (g s).soc = clampf (s.soc + -d) SOC_MIN SOC_MAX)
    (state : BMS_State) (n : Nat) (h0 : 0 ≤ state.soc) (hn : state.soc + n * d ≤ 1) :
    (f^[n] state).soc = state.soc + n * d ∧ (g^[n] (f^[n] state)).soc = state.soc := by
  have hup : (f^[n] state).soc = state.soc + n * d := by
    apply iterate_soc_no_clamp f d hf
    intro j hj
    have hjn : (j : ℚ) ≤ n := by exact_mod_cast hj
    have hjd : (j : ℚ) * d ≤ n * d := mul_le_mul_of_nonneg_right hjn hd
    have hj0 : 0 ≤ (j : ℚ) * d := mul_nonneg (by positivity) hd
    constructor <;> linarith
  refine ⟨hup, ?_⟩
  rw [iterate_soc_no_clamp g (-d) hg n (f^[n] state), hup]
  · ring
  · intro j hj
    rw [hup]
    have hjn : (j : ℚ) ≤ n := by exact_mod_cast hj
    have hjd : (j : ℚ) * d ≤ n * d := mul_le_mul_of_nonneg_right hjn hd
    have hj0 : 0 ≤ (j : ℚ) * d := mul_nonneg (by positivity) hd
    constructor <;> linarith

theorem bms_init_value (z : BMS_State) : BMS_Init z = ⟨1, 0, 4.2, 0, 0⟩ := by
  unfold BMS_Init ocv_from_soc clampf SOC_MIN SOC_MAX
  norm_num

/-- One zero-current step on the rested full cell only advances `step_count`. -/
theorem rest_step (expf : ℚ → ℚ) (dt : ℚ) (hdt : 0 < dt) (k : Nat) :
    BMS_ECM_Step expf ⟨1, 0, 4.2, 0, k⟩ 0 dt = ⟨1, 0, 4.2, 0, (k + 1) % 2 ^ 32⟩ := by
  have hd : ¬ dt ≤ 0.0 := by rw [zero_lit]; exact not_le.mpr hdt
  unfold BMS_ECM_Step
  simp only [hd, if_false, capacity_guard, if_true]
  unfold ocv_from_soc clampf SOC_MIN SOC_MAX R0 R1
  norm_num

/-- The state after `n` zero-current steps from `BMS_Init`. -/
theorem rest_iterate (expf : ℚ → ℚ) (dt : ℚ) (hdt : 0 < dt) (z : BMS_State) (n : Nat) :
    (fun s => BMS_ECM_Step expf s 0 dt)^[n] (BMS_Init z) = ⟨1, 0, 4.2, 0, n % 2 ^ 32⟩ := by
  induction n with
  | zero => rw [Function.iterate_zero_apply, bms_init_value]; rfl
  | succ n ih =>
    rw [Function.iterate_succ_apply', ih, rest_step expf dt hdt]
    congr 1
    exact Nat.mod_add_mod n (2 ^ 32) 1

/-- With exact stores the rounded step is `BMS_ECM_Step`. -/
theorem ecm_step_fl_id (expf : ℚ → ℚ) (state : BMS_State) (current dt : ℚ) :
    BMS_ECM_Step_fl id expf state current dt = BMS_ECM_Step expf state current dt := by
  unfold BMS_ECM_Step_fl BMS_ECM_Step ocv_from_soc_fl ocv_from_soc
  simp only [id]

/-- C6: SOC never leaves [0,1]. Every state reachable from `BMS_Init` by any sequence
of `BMS_ECM_Step` and `BMS_UpdateCoulombCount` calls, and every state reachable from
`EKF_Init` (any `init_soc`) by any sequence of `EKF_Predict` and `EKF_Update` calls,
has `0 ≤ soc ≤ 1`; and a single `BMS_ECM_Step`, `BMS_UpdateCoulombCount` or
`EKF_Predict` with `dt > 0`, and a single `EKF_Update`, yields soc in [0,1] from any
prior state. -/
theorem C6_soc_within_unit_interval (expf : ℚ → ℚ) :
    (∀ (z : BMS_State) (calls : List BMS_Call),
      0 ≤ (BMS_run expf (BMS_Init z) calls).soc ∧
      (BMS_run expf (BMS_Init z) calls).soc ≤ 1) ∧
    (∀ (z : EKF_State) (init_soc : ℚ) (calls : List EKF_Call),
      0 ≤ (EKF_run expf (EKF_Init z init_soc) calls).soc ∧
      (EKF_run expf (EKF_Init z init_soc) calls).soc ≤ 1) ∧
    (∀ (state : BMS_State) (current dt : ℚ), dt > 0 →
      0 ≤ (BMS_ECM_Step expf state current dt).soc ∧
      (BMS_ECM_Step expf state current dt).soc ≤ 1) ∧
    (∀ (state : BMS_State) (current dt : ℚ), dt > 0 →
      0 ≤ (BMS_UpdateCoulombCount state current dt).soc ∧
      (BMS_UpdateCoulombCount state current dt).soc ≤ 1) ∧
    (∀ (ekf : EKF_State) (current dt : ℚ), dt > 0 →
      0 ≤ (EKF_Predict expf ekf current dt).soc ∧
      (EKF_Predict expf ekf current dt).soc ≤ 1) ∧
    (∀ (ekf : EKF_State) (v_measured current : ℚ),
      0 ≤ (EKF_Update ekf v_measured current).soc ∧
      (EKF_Update ekf v_measured current).soc ≤ 1) := by
  refine ⟨?_, ?_, ?_, ?_, ?_, ?_⟩
  · intro z calls
    apply bms_run_soc_mem
    show (0 : ℚ) ≤ 1.0 ∧ (1.0 : ℚ) ≤ 1
    norm_num
  · intro z init_soc calls
    apply ekf_run_soc_mem
    exact clampf_mem init_soc
  · intro state current dt hdt
    rw [ecm_step_soc expf state current dt hdt]
    exact clampf_mem _
  · intro state current dt hdt
    rw [coulomb_soc state current dt hdt]
    exact clampf_mem _
  · intro ekf current dt hdt
    rw [predict_soc expf ekf current dt hdt]
    exact clampf_mem _
  · exact update_soc_mem

theorem C6_soc_within_unit_interval_witness :
    (1 : ℚ) > 0 ∧
    0 ≤ (BMS_ECM_Step (fun _ => 1 / 2) ⟨7, 0, 0, 0, 0⟩ (-3) 1).soc ∧
    (BMS_ECM_Step (fun _ => 1 / 2) ⟨7, 0, 0, 0, 0⟩ (-3) 1).soc ≤ 1 ∧
    0 ≤ (BMS_run (fun _ => 1 / 2) (BMS_Init ⟨7, 0, 0, 0, 0⟩)
      [.ecm_step 5 10000, .coulomb (-9) 10000]).soc :=
  ⟨by norm_num,
    ((C6_soc_within_unit_interval (fun _ => 1 / 2)).2.2.1 ⟨7, 0, 0, 0, 0⟩ (-3) 1
      (by norm_num)).1,
    ((C6_soc_within_unit_interval (fun _ => 1 / 2)).2.2.1 ⟨7, 0, 0, 0, 0⟩ (-3) 1
      (by norm_num)).2,
    ((C6_soc_within_unit_interval (fun _ => 1 / 2)).1 ⟨7, 0, 0, 0, 0⟩
      [.ecm_step 5 10000, .coulomb (-9) 10000]).1⟩

/-- C7: coulomb-counting round trip. For a starting soc `s` in [0,1], a current
`I ≥ 0`, a timestep `dt > 0` and a step count `n` with
`s + n*I*dt/(1.862*3600) ≤ 1`, `n` calls of `BMS_ECM_Step` (equally of
`BMS_UpdateCoulombCount`) with `(+I, dt)` followed by `n` calls with `(-I, dt)`
return soc exactly to `s`. -/
theorem C7_coulomb_round_trip (expf : ℚ → ℚ) (state : BMS_State) (I dt : ℚ) (n : Nat)
    (h0 : 0 ≤ state.soc) (_h1 : state.soc ≤ 1) (hI : 0 ≤ I) (hdt : 0 < dt)
    (hn : state.soc + n * I * dt / (1.862 * 3600) ≤ 1) :
    ((fun s => BMS_ECM_Step expf s (-I) dt)^[n]
      ((fun s => BMS_ECM_Step expf s I dt)^[n] state)).soc = state.soc ∧
    ((fun s => BMS_UpdateCoulombCount s (-I) dt)^[n]
      ((fun s => BMS_UpdateCoulombCount s I dt)^[n] state)).soc = state.soc := by
  have hcap : (0 : ℚ) < NOMINAL_CAPACITY * 3600.0 := by norm_num [NOMINAL_CAPACITY]
  have hd : 0 ≤ I * dt / (NOMINAL_CAPACITY * 3600.0) :=
    div_nonneg (mul_nonneg hI (le_of_lt hdt)) (le_of_lt hcap)
  have hneg : -I * dt / (NOMINAL_CAPACITY * 3600.0) = -(I * dt / (NOMINAL_CAPACITY * 3600.0)) := by
    ring
  have hn2 : state.soc + n * (I * dt / (NOMINAL_CAPACITY * 3600.0)) ≤ 1 := by
    have e : (n : ℚ) * (I * dt / (NOMINAL_CAPACITY * 3600.0))
        = n * I * dt / (1.862 * 3600) := by
      unfold NOMINAL_CAPACITY
      norm_num
      ring
    rw [e]
    exact hn
  constructor
  · exact (round_trip_of_step (fun s => BMS_ECM_Step expf s I dt)
      (fun s => BMS_ECM_Step expf s (-I) dt) _ hd
      (fun s => ecm_step_soc expf s I dt hdt)
      (fun s => by rw [ecm_step_soc expf s (-I) dt hdt, hneg]) state n h0 hn2).2
  · exact (round_trip_of_step (fun s => BMS_UpdateCoulombCount s I dt)
      (fun s => BMS_UpdateCoulombCount s (-I) dt) _ hd
      (fun s => coulomb_soc s I dt hdt)
      (fun s => by rw [coulomb_soc s (-I) dt hdt, hneg]) state n h0 hn2).2

theorem C7_coulomb_round_trip_witness :
    ((0 : ℚ) ≤ 0.5 ∧ (0.5 : ℚ) ≤ 1 ∧ (0 : ℚ) ≤ 1.0 ∧ (0 : ℚ) < 1 ∧
      (0.5 : ℚ) + (100 : Nat) * 1.0 * 1 / (1.862 * 3600) ≤ 1) ∧
    ((fun s => BMS_ECM_Step (fun _ => 19 / 20) s (-1.0) 1)^[100]
      ((fun s => BMS_ECM_Step (fun _ => 19 / 20) s 1.0 1)^[100] ⟨0.5, 0, 3.7, 0, 0⟩)).soc
      = 0.5 ∧
    ((fun s => BMS_UpdateCoulombCount s (-1.0) 1)^[100]
      ((fun s => BMS_UpdateCoulombCount s 1.0 1)^[100] ⟨0.5, 0, 3.7, 0, 0⟩)).soc = 0.5 :=
  ⟨by norm_num,
    C7_coulomb_round_trip (fun _ => 19 / 20) ⟨0.5, 0, 3.7, 0, 0⟩ 1.0 1 100
      (by norm_num) (by norm_num) (by norm_num) (by norm_num) (by norm_num)⟩

/-- C8: a non-positive timestep is a silent no-op. For every state, current and
voltage and every `dt ≤ 0`, each of `BMS_ECM_Step`, `BMS_UpdateCoulombCount`,
`EKF_Predict` and `SOH_Update` returns its input struct unchanged in every field. -/
theorem C8_nonpositive_timestep_is_noop (expf : ℚ → ℚ) (bms : BMS_State) (ekf : EKF_State)
    (soh : SOH_State) (current voltage dt : ℚ) (hdt : dt ≤ 0) :
    BMS_ECM_Step expf bms current dt = bms ∧
    BMS_UpdateCoulombCount bms current dt = bms ∧
    EKF_Predict expf ekf current dt = ekf ∧
    SOH_Update soh current voltage dt = soh := by
  have h := nonpositive_dt_noop expf dt hdt
  exact ⟨h.1 bms current, h.2.1 bms current, h.2.2.1 ekf current, h.2.2.2 soh current voltage⟩

theorem C8_nonpositive_timestep_is_noop_witness :
    (-1 : ℚ) ≤ 0 ∧
    BMS_ECM_Step (fun _ => 1 / 2) ⟨0.5, 0.1, 3.6, 1, 41⟩ 1.5 (-1) = ⟨0.5, 0.1, 3.6, 1, 41⟩ ∧
    BMS_UpdateCoulombCount ⟨0.5, 0.1, 3.6, 1, 41⟩ 1.5 (-1) = ⟨0.5, 0.1, 3.6, 1, 41⟩ ∧
    EKF_Predict (fun _ => 1 / 2) ⟨0.5, 0.1, 1, 2, 3, 4, 5, 6, 7, 8, 9⟩ 1.5 (-1)
      = ⟨0.5, 0.1, 1, 2, 3, 4, 5, 6, 7, 8, 9⟩ ∧
    SOH_Update ⟨2, 1.9, 95, 7, 3, true, 0.4, 3, 4, 2.5⟩ 1.5 2.75 (-1)
      = ⟨2, 1.9, 95, 7, 3, true, 0.4, 3, 4, 2.5⟩ :=
  ⟨by norm_num,
    C8_nonpositive_timestep_is_noop (fun _ => 1 / 2) ⟨0.5, 0.1, 3.6, 1, 41⟩
      ⟨0.5, 0.1, 1, 2, 3, 4, 5, 6, 7, 8, 9⟩ ⟨2, 1.9, 95, 7, 3, true, 0.4, 3, 4, 2.5⟩
      1.5 2.75 (-1) (by norm_num)⟩

/-- C9 (as stated, refuted): after `BMS_Init` and 4294967296 calls
`BMS_ECM_Step(current = 0, dt = 1)` the 32-bit `step_count` has wrapped to 0 and is
not the number of calls. -/
theorem C9_step_count_wraps :
    (1 : ℚ) > 0 ∧
    ((fun s => BMS_ECM_Step (fun _ => 19 / 20) s 0 1)^[4294967296]
      (BMS_Init ⟨0, 0, 0, 0, 0⟩)).step_count = 0 ∧
    ((fun s => BMS_ECM_Step (fun _ => 19 / 20) s 0 1)^[4294967296]
      (BMS_Init ⟨0, 0, 0, 0, 0⟩)).step_count ≠ 4294967296 := by
  rw [rest_iterate (fun _ => 19 / 20) 1 (by norm_num) ⟨0, 0, 0, 0, 0⟩ 4294967296]
  norm_num

/-- C9 (amended): resting cell stays at full-charge OCV. For every `n` and every
`dt > 0`, after `BMS_Init` followed by `n` calls `BMS_ECM_Step(current = 0, dt)` the
state has `soc = 1`, `v1 = 0`, `v_terminal = OCV(1.0) = 4.2` and
`step_count = n mod 2^32`, which is `n` whenever `n < 2^32`. -/
theorem C9_resting_cell_keeps_full_OCV (expf : ℚ → ℚ) (z : BMS_State) (n : Nat) (dt : ℚ)
    (hdt : dt > 0) :
    ((fun s => BMS_ECM_Step expf s 0 dt)^[n] (BMS_Init z)).soc = 1 ∧
    ((fun s => BMS_ECM_Step expf s 0 dt)^[n] (BMS_Init z)).v1 = 0 ∧
    ((fun s => BMS_ECM_Step expf s 0 dt)^[n] (BMS_Init z)).v_terminal = ocv_from_soc 1.0 ∧
    ocv_from_soc 1.0 = 4.2 ∧
    ((fun s => BMS_ECM_Step expf s 0 dt)^[n] (BMS_Init z)).step_count = n % 2 ^ 32 ∧
    (n < 2 ^ 32 →
      ((fun s => BMS_ECM_Step expf s 0 dt)^[n] (BMS_Init z)).step_count = n) := by
  have hocv : ocv_from_soc 1.0 = 4.2 := by
    unfold ocv_from_soc clampf SOC_MIN SOC_MAX
    norm_num
  rw [rest_iterate expf dt hdt z n, hocv]
  exact ⟨rfl, rfl, rfl, rfl, rfl, fun h => Nat.mod_eq_of_lt h⟩

theorem C9_resting_cell_keeps_full_OCV_witness :
    (1 : ℚ) > 0 ∧
    ((fun s => BMS_ECM_Step (fun _ => 19 / 20) s 0 1)^[3] (BMS_Init ⟨0, 0, 0, 0, 0⟩)).soc
      = 1 ∧
    ((fun s => BMS_ECM_Step (fun _ => 19 / 20) s 0 1)^[3] (BMS_Init ⟨0, 0, 0, 0, 0⟩)).v_terminal
      = 4.2 ∧
    ((fun s => BMS_ECM_Step (fun _ => 19 / 20) s 0 1)^[3] (BMS_Init ⟨0, 0, 0, 0, 0⟩)).step_count
      = 3 := by
  have h := C9_resting_cell_keeps_full_OCV (fun _ => 19 / 20) ⟨0, 0, 0, 0, 0⟩ 3 1
    (by norm_num)
  exact ⟨by norm_num, h.1, h.2.2.1.trans h.2.2.2.1, h.2.2.2.2.2 (by norm_num)⟩

/-- The four outcomes of `SOH_CheckCycleComplete`, as whole struct values. -/
theorem checkCycle_cases (soh : SOH_State) (voltage : ℚ) :
    SOH_CheckCycleComplete soh voltage =
      if soh.is_charging = false ∧ voltage ≤ VOLTAGE_MIN + 0.1 ∧ voltage > soh.prev_voltage then
        if soh.discharged_Ah > 0.1 then
          if (soh.cycles_since_update + 1) % 2 ^ 32 ≥ SOH_UPDATE_CYCLES then
            ({ soh with
                total_cycles := (soh.total_cycles + 1) % 2 ^ 32
                cycles_since_update := 0
                capacity_est_Ah := 0.9 * soh.capacity_est_Ah + 0.1 * soh.discharged_Ah
                soh_percent :=
                  ((0.9 * soh.capacity_est_Ah + 0.1 * soh.discharged_Ah)
                    / soh.capacity_initial_Ah) * 100.0
                discharged_Ah := 0.0
                v_min_cycle := 5.0
                v_max_cycle := 0.0 }, true)
          else
            ({ soh with
                total_cycles := (soh.total_cycles + 1) % 2 ^ 32
                cycles_since_update := (soh.cycles_since_update + 1) % 2 ^ 32
                discharged_Ah := 0.0
                v_min_cycle := 5.0
                v_max_cycle := 0.0 }, true)
        else
          ({ soh with
              total_cycles := (soh.total_cycles + 1) % 2 ^ 32
              cycles_since_update := (soh.cycles_since_update + 1) % 2 ^ 32 }, false)
      else (soh, false) := by
  unfold SOH_CheckCycleComplete
  by_cases hc : soh.is_charging = false ∧ voltage ≤ VOLTAGE_MIN + 0.1 ∧
      voltage > soh.prev_voltage
  · by_cases hd : soh.discharged_Ah > 0.1
    · by_cases hu : (soh.cycles_since_update + 1) % 2 ^ 32 ≥ SOH_UPDATE_CYCLES
      · simp only [hc, hd, hu, if_true, and_self]
      · simp only [hc, hd, hu, if_true, if_false, and_self]
    · simp only [hc, hd, if_true, if_false, and_self]
  · simp only [hc, if_false]

/-- The flag returned by `SOH_CheckCycleComplete`. -/
theorem checkCycle_flag (soh : SOH_State) (voltage : ℚ) :
    (SOH_CheckCycleComplete soh voltage).2 = true ↔
      (soh.is_charging = false ∧ voltage ≤ VOLTAGE_MIN + 0.1 ∧ voltage > soh.prev_voltage) ∧
        soh.discharged_Ah > 0.1 := by
  rw [checkCycle_cases]
  by_cases hc : soh.is_charging = false ∧ voltage ≤ VOLTAGE_MIN + 0.1 ∧
      voltage > soh.prev_voltage
  · by_cases hd : soh.discharged_Ah > 0.1
    · simp only [hc, hd, if_true, and_self, iff_true]
      split_ifs <;> rfl
    · simp [hc, hd]
  · simp [hc]

/-- The counters written by `SOH_CheckCycleComplete` when the end-of-discharge test
passes: both `++` statements come before the `discharged_Ah > 0.1` test. -/
theorem checkCycle_total_cycles (soh : SOH_State) (voltage : ℚ) :
    (SOH_CheckCycleComplete soh voltage).1.total_cycles =
      if soh.is_charging = false ∧ voltage ≤ VOLTAGE_MIN + 0.1 ∧ voltage > soh.prev_voltage
      then (soh.total_cycles + 1) % 2 ^ 32 else soh.total_cycles := by
  rw [checkCycle_cases]
  split_ifs <;> rfl

theorem checkCycle_discharged (soh : SOH_State) (voltage : ℚ) :
    (SOH_CheckCycleComplete soh voltage).1.discharged_Ah =
      if (SOH_CheckCycleComplete soh voltage).2 = true then 0 else soh.discharged_Ah := by
  rw [checkCycle_cases]
  split_ifs <;> simp_all [zero_lit]

theorem checkCycle_frame (soh : SOH_State) (voltage : ℚ) :
    (SOH_CheckCycleComplete soh voltage).1.is_charging = soh.is_charging ∧
    (SOH_CheckCycleComplete soh voltage).1.prev_voltage = soh.prev_voltage ∧
    (SOH_CheckCycleComplete soh voltage).1.capacity_initial_Ah = soh.capacity_initial_Ah := by
  rw [checkCycle_cases]
  split_ifs <;> exact ⟨rfl, rfl, rfl⟩

/-! ## Claims about `SOH_CheckCycleComplete` -/

/-- C11 (the code at the failing inputs): whenever the end-of-discharge test passes
with `discharged_Ah ≤ 0.1`, `SOH_CheckCycleComplete` returns false and still
increments `total_cycles` and `cycles_since_update` (modulo 2^32). -/
theorem C11_counters_advance_without_completion (soh : SOH_State) (voltage : ℚ)
    (hc : soh.is_charging = false ∧ voltage ≤ VOLTAGE_MIN + 0.1 ∧ voltage > soh.prev_voltage)
    (hd : soh.discharged_Ah ≤ 0.1) :
    (SOH_CheckCycleComplete soh voltage).2 = false ∧
    (SOH_CheckCycleComplete soh voltage).1.total_cycles = (soh.total_cycles + 1) % 2 ^ 32 ∧
    (SOH_CheckCycleComplete soh voltage).1.cycles_since_update
      = (soh.cycles_since_update + 1) % 2 ^ 32 := by
  have hd2 : ¬ soh.discharged_Ah > 0.1 := not_lt.mpr hd
  rw [checkCycle_cases]
  simp only [hc, hd2, if_true, if_false, and_self]

theorem C11_counters_advance_without_completion_witness :
    (SOH_CheckCycleComplete ⟨1.862, 1.862, 100, 0, 0, false, 0.05, 2.5, 4.2, 2.5⟩ 2.75).2
      = false ∧
    (SOH_CheckCycleComplete ⟨1.862, 1.862, 100, 0, 0, false, 0.05, 2.5, 4.2, 2.5⟩
      2.75).1.total_cycles = 1 ∧
    (SOH_CheckCycleComplete ⟨1.862, 1.862, 100, 0, 0, false, 0.05, 2.5, 4.2, 2.5⟩
      2.75).1.cycles_since_update = 1 :=
  C11_counters_advance_without_completion
    ⟨1.862, 1.862, 100, 0, 0, false, 0.05, 2.5, 4.2, 2.5⟩ 2.75
    ⟨rfl, by norm_num [VOLTAGE_MIN], by norm_num⟩ (by norm_num)

/-- C12: `SOH_CheckCycleComplete` changes `capacity_est_Ah` and `soh_percent` only when
the end-of-discharge test passes, `discharged_Ah > 0.1` and the incremented
`cycles_since_update` is at least `SOH_UPDATE_CYCLES` (20); then the new capacity is
`0.9*capacity_est + 0.1*discharged_Ah` (the value before the reset), the new
`soh_percent` is `100*capacity_est'/capacity_initial` and `cycles_since_update`
becomes 0; in every other case both are unchanged. -/
theorem C12_capacity_update_cadence (soh : SOH_State) (voltage : ℚ) :
    SOH_UPDATE_CYCLES = 20 ∧
    (soh.cycles_since_update < 2 ^ 32 - 1 →
      (soh.cycles_since_update + 1) % 2 ^ 32 = soh.cycles_since_update + 1) ∧
    ((soh.is_charging = false ∧ voltage ≤ VOLTAGE_MIN + 0.1 ∧ voltage > soh.prev_voltage) ∧
        soh.discharged_Ah > 0.1 ∧
        (soh.cycles_since_update + 1) % 2 ^ 32 ≥ SOH_UPDATE_CYCLES →
      (SOH_CheckCycleComplete soh voltage).1.capacity_est_Ah
        = 0.9 * soh.capacity_est_Ah + 0.1 * soh.discharged_Ah ∧
      (SOH_CheckCycleComplete soh voltage).1.soh_percent
        = 100 * (SOH_CheckCycleComplete soh voltage).1.capacity_est_Ah
            / soh.capacity_initial_Ah ∧
      (SOH_CheckCycleComplete soh voltage).1.cycles_since_update = 0) ∧
    (¬ ((soh.is_charging = false ∧ voltage ≤ VOLTAGE_MIN + 0.1 ∧ voltage > soh.prev_voltage) ∧
        soh.discharged_Ah > 0.1 ∧
        (soh.cycles_since_update + 1) % 2 ^ 32 ≥ SOH_UPDATE_CYCLES) →
      (SOH_CheckCycleComplete soh voltage).1.capacity_est_Ah = soh.capacity_est_Ah ∧
      (SOH_CheckCycleComplete soh voltage).1.soh_percent = soh.soh_percent) := by
  refine ⟨rfl, fun h => Nat.mod_eq_of_lt (by omega), ?_, ?_⟩
  · rintro ⟨hc, hd, hu⟩
    rw [checkCycle_cases]
    simp only [hc, hd, hu, if_true, and_self]
    refine ⟨trivial, ?_, trivial⟩
    norm_num
    ring
  · intro hn
    rw [checkCycle_cases]
    split_ifs with hc hd hu
    · exact absurd ⟨hc, hd, hu⟩ hn
    · exact ⟨rfl, rfl⟩
    · exact ⟨rfl, rfl⟩
    · exact ⟨rfl, rfl⟩

theorem C12_capacity_update_cadence_witness :
    (SOH_CheckCycleComplete ⟨1.862, 1.862, 100, 19, 19, false, 1.5, 2.5, 4.2, 2.5⟩
      2.75).1.capacity_est_Ah = 0.9 * 1.862 + 0.1 * 1.5 ∧
    (SOH_CheckCycleComplete ⟨1.862, 1.862, 100, 19, 19, false, 1.5, 2.5, 4.2, 2.5⟩
      2.75).1.cycles_since_update = 0 ∧
    (SOH_CheckCycleComplete ⟨1.862, 1.862, 100, 7, 7, false, 1.5, 2.5, 4.2, 2.5⟩
      2.75).1.capacity_est_Ah = 1.862 := by
  have h1 := (C12_capacity_update_cadence
    ⟨1.862, 1.862, 100, 19, 19, false, 1.5, 2.5, 4.2, 2.5⟩ 2.75).2.2.1
    ⟨⟨rfl, by norm_num [VOLTAGE_MIN], by norm_num⟩, by norm_num, by decide⟩
  have h2 := (C12_capacity_update_cadence
    ⟨1.862, 1.862, 100, 7, 7, false, 1.5, 2.5, 4.2, 2.5⟩ 2.75).2.2.2
    (by rintro ⟨-, -, hu⟩; revert hu; decide)
  exact ⟨h1.1, h1.2.2, h2.1⟩

/-- C13: if `SOH_CheckCycleComplete` returns true then the resulting state has
`discharged_Ah = 0`, `v_min_cycle = 5.0` and `v_max_cycle = 0.0`, and an immediately
following `SOH_CheckCycleComplete` on that state returns false for any voltage. -/
theorem C13_completed_cycle_reported_once (soh : SOH_State) (voltage : ℚ)
    (h : (SOH_CheckCycleComplete soh voltage).2 = true) :
    (SOH_CheckCycleComplete soh voltage).1.discharged_Ah = 0 ∧
    (SOH_CheckCycleComplete soh voltage).1.v_min_cycle = 5.0 ∧
    (SOH_CheckCycleComplete soh voltage).1.v_max_cycle = 0.0 ∧
    ∀ voltage2 : ℚ,
      (SOH_CheckCycleComplete (SOH_CheckCycleComplete soh voltage).1 voltage2).2 = false := by
  have hd : (SOH_CheckCycleComplete soh voltage).1.discharged_Ah = 0 := by
    rw [checkCycle_discharged, if_pos h]
  have hw : (SOH_CheckCycleComplete soh voltage).1.v_min_cycle = 5.0 ∧
      (SOH_CheckCycleComplete soh voltage).1.v_max_cycle = 0.0 := by
    obtain ⟨hc, hdd⟩ := (checkCycle_flag soh voltage).mp h
    rw [checkCycle_cases]
    simp only [hc, hdd, if_true, and_self]
    split_ifs <;> exact ⟨rfl, rfl⟩
  refine ⟨hd, hw.1, hw.2, ?_⟩
  intro voltage2
  by_contra hcon
  have ht : (SOH_CheckCycleComplete (SOH_CheckCycleComplete soh voltage).1 voltage2).2
      = true := by simpa using hcon
  have := ((checkCycle_flag _ voltage2).mp ht).2
  rw [hd] at this
  norm_num at this

theorem C13_completed_cycle_reported_once_witness :
    (SOH_CheckCycleComplete ⟨1.862, 1.862, 100, 3, 3, false, 1.5, 2.5, 4.2, 2.5⟩ 2.75).2
      = true ∧
    (SOH_CheckCycleComplete ⟨1.862, 1.862, 100, 3, 3, false, 1.5, 2.5, 4.2, 2.5⟩
      2.75).1.discharged_Ah = 0 ∧
    (SOH_CheckCycleComplete
      (SOH_CheckCycleComplete ⟨1.862, 1.862, 100, 3, 3, false, 1.5, 2.5, 4.2, 2.5⟩ 2.75).1
      2.78).2 = false := by
  have ht : (SOH_CheckCycleComplete
      ⟨1.862, 1.862, 100, 3, 3, false, 1.5, 2.5, 4.2, 2.5⟩ 2.75).2 = true :=
    (checkCycle_flag _ _).mpr ⟨⟨rfl, by norm_num [VOLTAGE_MIN], by norm_num⟩, by norm_num⟩
  have h := C13_completed_cycle_reported_once
    ⟨1.862, 1.862, 100, 3, 3, false, 1.5, 2.5, 4.2, 2.5⟩ 2.75 ht
  exact ⟨ht, h.1, h.2.2.2 2.78⟩

/-! ## Facts about `SOH_Update` -/

theorem soh_update_eq (soh : SOH_State) (current_A voltage_V dt_s : ℚ) (hdt : 0 < dt_s) :
    SOH_Update soh current_A voltage_V dt_s =
      { (SOH_CheckCycleComplete (SOH_Update_track soh current_A voltage_V dt_s) voltage_V).1
        with prev_voltage := voltage_V } := by
  have hd : ¬ dt_s ≤ 0.0 := by rw [zero_lit]; exact not_le.mpr hdt
  unfold SOH_Update SOH_Update_track
  simp only [hd, if_false]

theorem soh_update_noop (soh : SOH_State) (current_A voltage_V dt_s : ℚ) (hdt : dt_s ≤ 0) :
    SOH_Update soh current_A voltage_V dt_s = soh := by
  have hd : dt_s ≤ 0.0 := by rw [zero_lit]; exact hdt
  unfold SOH_Update
  simp only [hd, if_true]

/-- The fields written, and the fields left alone, by the tracking statements. -/
theorem track_fields (soh : SOH_State) (current_A voltage_V dt_s : ℚ) :
    (SOH_Update_track soh current_A voltage_V dt_s).capacity_initial_Ah
      = soh.capacity_initial_Ah ∧
    (SOH_Update_track soh current_A voltage_V dt_s).capacity_est_Ah = soh.capacity_est_Ah ∧
    (SOH_Update_track soh current_A voltage_V dt_s).soh_percent = soh.soh_percent ∧
    (SOH_Update_track soh current_A voltage_V dt_s).total_cycles = soh.total_cycles ∧
    (SOH_Update_track soh current_A voltage_V dt_s).cycles_since_update
      = soh.cycles_since_update ∧
    (SOH_Update_track soh current_A voltage_V dt_s).prev_voltage = soh.prev_voltage ∧
    (SOH_Update_track soh current_A voltage_V dt_s).is_charging
      = decide (current_A > 0.05) ∧
    (SOH_Update_track soh current_A voltage_V dt_s).discharged_Ah
      = soh.discharged_Ah + (if current_A < -0.05 then |current_A| * dt_s / 3600 else 0) := by
  unfold SOH_Update_track
  simp only []
  by_cases hneg : current_A < -0.05
  · have hnc : ¬ current_A > 0.05 := by
      intro h
      have : (0.05 : ℚ) < -0.05 := lt_trans h hneg
      norm_num at this
    have habs : |current_A| = -current_A :=
      abs_of_neg (lt_trans hneg (by norm_num))
    simp only [hneg, hnc, habs, decide_False, decide_True, and_self, if_true, true_and,
      and_true]
    split_ifs <;> norm_num
  · simp only [hneg, and_false, if_false, add_zero]
    split_ifs <;> simp

/-- The flag of the completion check made inside `SOH_Update`, in terms of the inputs. -/
theorem update_check_flag (soh : SOH_State) (current_A voltage_V dt_s : ℚ) :
    (SOH_CheckCycleComplete (SOH_Update_track soh current_A voltage_V dt_s) voltage_V).2 = true ↔
      (¬ current_A > 0.05 ∧ voltage_V ≤ VOLTAGE_MIN + 0.1 ∧ voltage_V > soh.prev_voltage) ∧
      soh.discharged_Ah + (if current_A < -0.05 then |current_A| * dt_s / 3600 else 0) > 0.1 := by
  obtain ⟨-, -, -, -, -, hpv, hch, hdis⟩ := track_fields soh current_A voltage_V dt_s
  rw [checkCycle_flag, hpv, hch, hdis]
  simp

/-- The summary `(capacity_initial, capacity_est, soh_percent, cycles_since_update,
is_charging, discharged_Ah, prev_voltage)` of the state after one `SOH_Update` with a
positive timestep. -/
theorem soh_update_summary (soh : SOH_State) (current_A voltage_V dt_s : ℚ) (hdt : 0 < dt_s) :
    ((SOH_Update soh current_A voltage_V dt_s).capacity_initial_Ah,
      (SOH_Update soh current_A voltage_V dt_s).capacity_est_Ah,
      (SOH_Update soh current_A voltage_V dt_s).soh_percent,
      (SOH_Update soh current_A voltage_V dt_s).cycles_since_update,
      (SOH_Update soh current_A voltage_V dt_s).is_charging,
      (SOH_Update soh current_A voltage_V dt_s).discharged_Ah,
      (SOH_Update soh current_A voltage_V dt_s).prev_voltage) =
    if ¬ current_A > 0.05 ∧ voltage_V ≤ VOLTAGE_MIN + 0.1 ∧ voltage_V > soh.prev_voltage then
      if soh.discharged_Ah + (if current_A < -0.05 then |current_A| * dt_s / 3600 else 0)
          > 0.1 then
        if (soh.cycles_since_update + 1) % 2 ^ 32 ≥ SOH_UPDATE_CYCLES then
          (soh.capacity_initial_Ah,
            0.9 * soh.capacity_est_Ah + 0.1 * (soh.discharged_Ah +
              (if current_A < -0.05 then |current_A| * dt_s / 3600 else 0)),
            ((0.9 * soh.capacity_est_Ah + 0.1 * (soh.discharged_Ah +
              (if current_A < -0.05 then |current_A| * dt_s / 3600 else 0)))
              / soh.capacity_initial_Ah) * 100,
            0, false, 0, voltage_V)
        else
          (soh.capacity_initial_Ah, soh.capacity_est_Ah, soh.soh_percent,
            (soh.cycles_since_update + 1) % 2 ^ 32, false, 0, voltage_V)
      else
        (soh.capacity_initial_Ah, soh.capacity_est_Ah, soh.soh_percent,
          (soh.cycles_since_update + 1) % 2 ^ 32, false,
          soh.discharged_Ah + (if current_A < -0.05 then |current_A| * dt_s / 3600 else 0),
          voltage_V)
    else
      (soh.capacity_initial_Ah, soh.capacity_est_Ah, soh.soh_percent,
        soh.cycles_since_update, decide (current_A > 0.05),
        soh.discharged_Ah + (if current_A < -0.05 then |current_A| * dt_s / 3600 else 0),
        voltage_V) := by
  obtain ⟨hci, hce, hsp, -, hcsu, hpv, hch, hdis⟩ := track_fields soh current_A voltage_V dt_s
  have hcond : ((SOH_Update_track soh current_A voltage_V dt_s).is_charging = false ∧
      voltage_V ≤ VOLTAGE_MIN + 0.1 ∧
      voltage_V > (SOH_Update_track soh current_A voltage_V dt_s).prev_voltage) ↔
      (¬ current_A > 0.05 ∧ voltage_V ≤ VOLTAGE_MIN + 0.1 ∧ voltage_V > soh.prev_voltage) := by
    rw [hch, hpv, decide_eq_false_iff_not]
  rw [soh_update_eq soh current_A voltage_V dt_s hdt, checkCycle_cases]
  by_cases hc : ¬ current_A > 0.05 ∧ voltage_V ≤ VOLTAGE_MIN + 0.1 ∧
      voltage_V > soh.prev_voltage
  · have hnc : decide (current_A > 0.05) = false := decide_eq_false hc.1
    rw [if_pos (hcond.mpr hc), if_pos hc]
    by_cases ha : soh.discharged_Ah
        + (if current_A < -0.05 then |current_A| * dt_s / 3600 else 0) > 0.1
    · rw [if_pos (show (SOH_Update_track soh current_A voltage_V dt_s).discharged_Ah > 0.1 by
        rw [hdis]; exact ha), if_pos ha]
      by_cases hu : (soh.cycles_since_update + 1) % 2 ^ 32 ≥ SOH_UPDATE_CYCLES
      · rw [if_pos (show ((SOH_Update_track soh current_A voltage_V dt_s).cycles_since_update
          + 1) % 2 ^ 32 ≥ SOH_UPDATE_CYCLES by rw [hcsu]; exact hu), if_pos hu]
        simp only [hci, hce, hdis, hch, hnc]
        norm_num
      · rw [if_neg (show ¬ ((SOH_Update_track soh current_A voltage_V dt_s).cycles_since_update
          + 1) % 2 ^ 32 ≥ SOH_UPDATE_CYCLES by rw [hcsu]; exact hu), if_neg hu]
        simp only [hci, hce, hsp, hcsu, hch, hnc]
        norm_num
    · rw [if_neg (show ¬ (SOH_Update_track soh current_A voltage_V dt_s).discharged_Ah > 0.1 by
        rw [hdis]; exact ha), if_neg ha]
      simp only [hci, hce, hsp, hcsu, hch, hnc, hdis]
  · rw [if_neg (fun h => hc (hcond.mp h)), if_neg hc]
    simp only [hci, hce, hsp, hcsu, hch, hdis]

/-- The accumulator after one `SOH_Update` with a positive timestep. -/
theorem soh_update_discharged (soh : SOH_State) (current_A voltage_V dt_s : ℚ)
    (hdt : 0 < dt_s) :
    (SOH_Update soh current_A voltage_V dt_s).discharged_Ah =
      if (SOH_CheckCycleComplete (SOH_Update_track soh current_A voltage_V dt_s)
          voltage_V).2 = true then 0
      else soh.discharged_Ah
        + (if current_A < -0.05 then |current_A| * dt_s / 3600 else 0) := by
  rw [soh_update_eq soh current_A voltage_V dt_s hdt]
  show (SOH_CheckCycleComplete (SOH_Update_track soh current_A voltage_V dt_s)
    voltage_V).1.discharged_Ah = _
  rw [checkCycle_discharged, (track_fields soh current_A voltage_V dt_s).2.2.2.2.2.2.2]

theorem accumulate_nonneg (d current_A dt_s : ℚ) (hd : 0 ≤ d) (hdt : 0 < dt_s) :
    0 ≤ d + (if current_A < -0.05 then |current_A| * dt_s / 3600 else 0) := by
  split_ifs
  · have : 0 ≤ |current_A| * dt_s / 3600 :=
      div_nonneg (mul_nonneg (abs_nonneg _) (le_of_lt hdt)) (by norm_num)
    linarith
  · linarith

theorem soh_call_discharged_nonneg (soh : SOH_State) (call : SOH_Call)
    (h : 0 ≤ soh.discharged_Ah) : 0 ≤ (call.run soh).discharged_Ah := by
  cases call with
  | update current_A voltage_V dt_s =>
    show 0 ≤ (SOH_Update soh current_A voltage_V dt_s).discharged_Ah
    by_cases hdt : 0 < dt_s
    · rw [soh_update_discharged soh current_A voltage_V dt_s hdt]
      by_cases hf : (SOH_CheckCycleComplete
          (SOH_Update_track soh current_A voltage_V dt_s) voltage_V).2 = true
      · rw [if_pos hf]
      · rw [if_neg hf]
        exact accumulate_nonneg soh.discharged_Ah current_A dt_s h hdt
    · rw [soh_update_noop soh current_A voltage_V dt_s (not_lt.mp hdt)]
      exact h
  | check voltage =>
    show 0 ≤ (SOH_CheckCycleComplete soh voltage).1.discharged_Ah
    rw [checkCycle_discharged]
    split_ifs
    · exact le_refl _
    · exact h

theorem soh_run_discharged_nonneg (calls : List SOH_Call) :
    ∀ soh : SOH_State, 0 ≤ soh.discharged_Ah → 0 ≤ (SOH_run soh calls).discharged_Ah := by
  induction calls with
  | nil => intro soh h; exact h
  | cons call rest ih =>
    intro soh h
    exact ih (call.run soh) (soh_call_discharged_nonneg soh call h)

/-! ## Claims about `SOH_Update` -/

/-- C20: accumulated discharge is never negative. Every state reachable from
`SOH_Init` by any sequence of `SOH_Update` and `SOH_CheckCycleComplete` calls has
`discharged_Ah ≥ 0`; and a `SOH_Update` with `dt > 0` adds exactly `|current|*dt/3600`
to it when `current < -0.05` and nothing otherwise, the result being that sum unless
the completion check made inside the update returns true and resets it to 0. -/
theorem C20_discharged_Ah_nonneg :
    (∀ (z : SOH_State) (capacity_initial_Ah : ℚ) (calls : List SOH_Call),
      (SOH_run (SOH_Init z capacity_initial_Ah) calls).discharged_Ah ≥ 0) ∧
    (∀ (soh : SOH_State) (current_A voltage_V dt_s : ℚ), dt_s > 0 →
      (current_A < -0.05 →
        (SOH_Update_track soh current_A voltage_V dt_s).discharged_Ah
          = soh.discharged_Ah + |current_A| * dt_s / 3600) ∧
      (¬ current_A < -0.05 →
        (SOH_Update_track soh current_A voltage_V dt_s).discharged_Ah = soh.discharged_Ah) ∧
      (SOH_Update soh current_A voltage_V dt_s).discharged_Ah =
        if (SOH_CheckCycleComplete (SOH_Update_track soh current_A voltage_V dt_s)
            voltage_V).2 = true then 0
        else (SOH_Update_track soh current_A voltage_V dt_s).discharged_Ah) := by
  constructor
  · intro z c calls
    apply soh_run_discharged_nonneg
    show (0 : ℚ) ≤ 0.0
    norm_num
  · intro soh current_A voltage_V dt_s hdt
    have hdis := (track_fields soh current_A voltage_V dt_s).2.2.2.2.2.2.2
    refine ⟨?_, ?_, ?_⟩
    · intro hneg
      rw [hdis, if_pos hneg]
    · intro hneg
      rw [hdis, if_neg hneg, add_zero]
    · rw [soh_update_discharged soh current_A voltage_V dt_s hdt, hdis]

theorem C20_discharged_Ah_nonneg_witness :
    ((1 : ℚ) > 0 ∧ (-2 : ℚ) < -0.05) ∧
    (SOH_Update_track ⟨1.862, 1.862, 100, 0, 0, false, 0.25, 3, 4, 3.5⟩ (-2) 3.4 1).discharged_Ah
      = 0.25 + |(-2 : ℚ)| * 1 / 3600 ∧
    (SOH_run (SOH_Init ⟨0, 0, 0, 0, 0, true, -1, 0, 0, 0⟩ 1.862)
      [.update (-2) 3.4 1, .check 2.7]).discharged_Ah ≥ 0 :=
  ⟨by norm_num,
    ((C20_discharged_Ah_nonneg.2 ⟨1.862, 1.862, 100, 0, 0, false, 0.25, 3, 4, 3.5⟩ (-2) 3.4 1
      (by norm_num)).1 (by norm_num)),
    C20_discharged_Ah_nonneg.1 ⟨0, 0, 0, 0, 0, true, -1, 0, 0, 0⟩ 1.862
      [.update (-2) 3.4 1, .check 2.7]⟩

/-- One resting sample (zero current, one second) whose voltage lies above the previous
sample and at most 0.1 V above `VOLTAGE_MIN`, taken with an empty accumulator: the
end-of-discharge test passes, so `cycles_since_update` advances, and nothing else of
the capacity estimate changes. -/
theorem rest_tick (soh : SOH_State) (voltage_V : ℚ) (hd : soh.discharged_Ah = 0)
    (hv1 : voltage_V ≤ VOLTAGE_MIN + 0.1) (hv2 : voltage_V > soh.prev_voltage) :
    (SOH_Update soh 0 voltage_V 1).capacity_initial_Ah = soh.capacity_initial_Ah ∧
    (SOH_Update soh 0 voltage_V 1).capacity_est_Ah = soh.capacity_est_Ah ∧
    (SOH_Update soh 0 voltage_V 1).cycles_since_update
      = (soh.cycles_since_update + 1) % 2 ^ 32 ∧
    (SOH_Update soh 0 voltage_V 1).discharged_Ah = 0 ∧
    (SOH_Update soh 0 voltage_V 1).prev_voltage = voltage_V := by
  have h := soh_update_summary soh 0 voltage_V 1 (by norm_num)
  have hc : ¬ (0 : ℚ) > 0.05 ∧ voltage_V ≤ VOLTAGE_MIN + 0.1 ∧ voltage_V > soh.prev_voltage :=
    ⟨by norm_num, hv1, hv2⟩
  have ha : ¬ soh.discharged_Ah + (if (0 : ℚ) < -0.05 then |(0 : ℚ)| * 1 / 3600 else 0) > 0.1 := by
    rw [hd]
    norm_num
  rw [if_pos hc, if_neg ha] at h
  simp only [Prod.mk.injEq] at h
  obtain ⟨h1, h2, -, h4, -, h6, h7⟩ := h
  refine ⟨h1, h2, h4, ?_, h7⟩
  rw [h6, hd]
  norm_num

/-- The first sample after `SOH_Init`: `prev_voltage` still holds the sentinel 5.0, so
the end-of-discharge test fails. -/
theorem first_tick (z : SOH_State) (c : ℚ) :
    (SOH_Update (SOH_Init z c) 0 2.7 1).capacity_initial_Ah = c ∧
    (SOH_Update (SOH_Init z c) 0 2.7 1).capacity_est_Ah = c ∧
    (SOH_Update (SOH_Init z c) 0 2.7 1).cycles_since_update = 0 ∧
    (SOH_Update (SOH_Init z c) 0 2.7 1).discharged_Ah = 0 ∧
    (SOH_Update (SOH_Init z c) 0 2.7 1).prev_voltage = 2.7 := by
  have h := soh_update_summary (SOH_Init z c) 0 2.7 1 (by norm_num)
  have hc : ¬ (¬ (0 : ℚ) > 0.05 ∧ (2.7 : ℚ) ≤ VOLTAGE_MIN + 0.1 ∧
      (2.7 : ℚ) > (SOH_Init z c).prev_voltage) := by
    show ¬ (¬ (0 : ℚ) > 0.05 ∧ (2.7 : ℚ) ≤ VOLTAGE_MIN + 0.1 ∧ (2.7 : ℚ) > 5.0)
    norm_num
  rw [if_neg hc] at h
  simp only [Prod.mk.injEq] at h
  obtain ⟨h1, h2, -, h4, -, h6, h7⟩ := h
  refine ⟨h1, h2, h4, ?_, h7⟩
  rw [h6]
  show (0.0 : ℚ) + _ = 0
  norm_num

/-- The state after the first `k + 1` resting samples of the overshoot scenario. -/
theorem rest_ticks (z : SOH_State) (c : ℚ) (k : Nat) (hk : k ≤ 19) :
    (SOH_run (SOH_Init z c)
      ((List.range (k + 1)).map fun j : Nat => SOH_Call.update 0 (2.7 + (j : ℚ) / 200) 1)
      ).capacity_initial_Ah = c ∧
    (SOH_run (SOH_Init z c)
      ((List.range (k + 1)).map fun j : Nat => SOH_Call.update 0 (2.7 + (j : ℚ) / 200) 1)
      ).capacity_est_Ah = c ∧
    (SOH_run (SOH_Init z c)
      ((List.range (k + 1)).map fun j : Nat => SOH_Call.update 0 (2.7 + (j : ℚ) / 200) 1)
      ).cycles_since_update = k ∧
    (SOH_run (SOH_Init z c)
      ((List.range (k + 1)).map fun j : Nat => SOH_Call.update 0 (2.7 + (j : ℚ) / 200) 1)
      ).discharged_Ah = 0 ∧
    (SOH_run (SOH_Init z c)
      ((List.range (k + 1)).map fun j : Nat => SOH_Call.update 0 (2.7 + (j : ℚ) / 200) 1)
      ).prev_voltage = 2.7 + (k : ℚ) / 200 := by
  induction k with
  | zero =>
    have h := first_tick z c
    have e : (2.7 : ℚ) + ((0 : Nat) : ℚ) / 200 = 2.7 := by norm_num
    simp only [List.range_succ, List.range_zero, List.nil_append, List.map_cons, List.map_nil, SOH_run, List.foldl_cons,
      List.foldl_nil, SOH_Call.run, e]
    exact h
  | succ k ih =>
    obtain ⟨i1, i2, i3, i4, i5⟩ := ih (Nat.le_of_succ_le hk)
    have hk' : (k : ℚ) ≤ 18 := by exact_mod_cast Nat.le_of_succ_le_succ hk
    rw [List.range_succ, List.map_append, SOH_run, List.foldl_append]
    simp only [List.map_cons, List.map_nil, List.foldl_cons, List.foldl_nil, SOH_Call.run]
    have ht := rest_tick
      (SOH_run (SOH_Init z c)
        ((List.range (k + 1)).map fun j : Nat => SOH_Call.update 0 (2.7 + (j : ℚ) / 200) 1))
      (2.7 + ((k + 1 : Nat) : ℚ) / 200) i4
      (by push_cast; norm_num [VOLTAGE_MIN]; linarith)
      (by rw [i5]; push_cast; linarith)
    obtain ⟨t1, t2, t3, t4, t5⟩ := ht
    simp only [SOH_run] at t1 t2 t3 t4 t5 i1 i2 i3
    refine ⟨t1.trans i1, t2.trans i2, ?_, t4, t5⟩
    rw [t3, i3]
    exact Nat.mod_eq_of_lt (by omega)

/-- The overshoot scenario: twenty resting samples creeping up from 2.700 V to 2.795 V
bring `cycles_since_update` to 19; a discharge sample of 2 Ah at 2.799 V then triggers
the capacity update with more charge than the initial capacity. -/
theorem overshoot_percent (z : SOH_State) :
    (SOH_run (SOH_Init z 1.862)
      (((List.range 20).map fun j : Nat => SOH_Call.update 0 (2.7 + (j : ℚ) / 200) 1)
        ++ [SOH_Call.update (-2) 2.799 3600])).soh_percent
      = (0.9 * 1.862 + 0.1 * 2) / 1.862 * 100 := by
  obtain ⟨i1, i2, i3, i4, i5⟩ := rest_ticks z 1.862 19 (le_refl _)
  rw [SOH_run, List.foldl_append]
  simp only [List.foldl_cons, List.foldl_nil, SOH_Call.run]
  simp only [SOH_run] at i1 i2 i3 i4 i5
  have h := soh_update_summary
    (List.foldl SOH_Call.run (SOH_Init z 1.862)
      ((List.range (19 + 1)).map fun j : Nat => SOH_Call.update 0 (2.7 + (j : ℚ) / 200) 1))
    (-2) 2.799 3600 (by norm_num)
  rw [i1, i2, i3, i4, i5] at h
  have hc : ¬ (-2 : ℚ) > 0.05 ∧ (2.799 : ℚ) ≤ VOLTAGE_MIN + 0.1 ∧
      (2.799 : ℚ) > 2.7 + ((19 : Nat) : ℚ) / 200 := by
    norm_num [VOLTAGE_MIN]
  have ha : (0 : ℚ) + (if (-2 : ℚ) < -0.05 then |(-2 : ℚ)| * 3600 / 3600 else 0) > 0.1 := by
    norm_num
  have hu : (19 + 1) % 2 ^ 32 ≥ SOH_UPDATE_CYCLES := by decide
  rw [if_pos hc, if_pos ha, if_pos hu] at h
  simp only [Prod.mk.injEq] at h
  rw [h.2.2.1]
  norm_num

/-- C14 (the code at the failing input): after `SOH_Init(1.862)`, twenty resting
samples (0 A, 1 s) at 2.700 V, 2.705 V, ..., 2.795 V and one discharge sample
(-2 A, 3600 s) at 2.799 V, `SOH_GetPercentage` returns
`(0.9*1.862 + 0.1*2)/1.862*100`, which is above 100. -/
theorem C14_soh_percent_exceeds_100 :
    (1.862 : ℚ) > 0 ∧
    SOH_GetPercentage (SOH_run (SOH_Init ⟨0, 0, 0, 0, 0, false, 0, 0, 0, 0⟩ 1.862)
      (((List.range 20).map fun j : Nat => SOH_Call.update 0 (2.7 + (j : ℚ) / 200) 1)
        ++ [SOH_Call.update (-2) 2.799 3600]))
      = (0.9 * 1.862 + 0.1 * 2) / 1.862 * 100 ∧
    SOH_GetPercentage (SOH_run (SOH_Init ⟨0, 0, 0, 0, 0, false, 0, 0, 0, 0⟩ 1.862)
      (((List.range 20).map fun j : Nat => SOH_Call.update 0 (2.7 + (j : ℚ) / 200) 1)
        ++ [SOH_Call.update (-2) 2.799 3600])) > 100 := by
  unfold SOH_GetPercentage
  rw [overshoot_percent]
  norm_num

/-! ## Facts about the EKF -/

/-- The polarization voltage written by `BMS_ECM_Step` when the timestep is positive. -/
theorem ecm_step_v1 (expf : ℚ → ℚ) (state : BMS_State) (current dt : ℚ) (hdt : 0 < dt) :
    (BMS_ECM_Step expf state current dt).v1
      = state.v1 * expf (-dt / (R1 * C1))
        + |current| * R1 * (1 - expf (-dt / (R1 * C1))) := by
  have hd : ¬ dt ≤ 0.0 := by rw [zero_lit]; exact not_le.mpr hdt
  have htau : R1 * C1 > (1e-6 : ℚ) := by norm_num [R1, C1]
  unfold BMS_ECM_Step
  simp only [hd, if_false, capacity_guard, if_true, htau]
  split_ifs <;> norm_num

/-- The terminal voltage written by `BMS_ECM_Step` when the timestep is positive. -/
theorem ecm_step_v_terminal (expf : ℚ → ℚ) (state : BMS_State) (current dt : ℚ)
    (hdt : 0 < dt) :
    (BMS_ECM_Step expf state current dt).v_terminal
      = ocv_from_soc (BMS_ECM_Step expf state current dt).soc
        - (BMS_ECM_Step expf state current dt).v1 - |current| * R0 := by
  have hd : ¬ dt ≤ 0.0 := by rw [zero_lit]; exact not_le.mpr hdt
  unfold BMS_ECM_Step
  simp only [hd, if_false]

theorem coulomb_v1 (state : BMS_State) (current dt : ℚ) :
    (BMS_UpdateCoulombCount state current dt).v1 = state.v1 := by
  unfold BMS_UpdateCoulombCount
  simp only []
  split_ifs <;> rfl

/-- The state estimate and covariance written by `EKF_Predict` when the timestep is
positive; the noise parameters are not written. -/
theorem predict_fields (expf : ℚ → ℚ) (ekf : EKF_State) (current dt : ℚ) (hdt : 0 < dt) :
    (EKF_Predict expf ekf current dt).v1
      = ekf.v1 * expf (-dt / (R1 * C1))
        + |current| * R1 * (1 - expf (-dt / (R1 * C1))) ∧
    (EKF_Predict expf ekf current dt).p11 = ekf.p11 + ekf.q11 ∧
    (EKF_Predict expf ekf current dt).p12 = ekf.p12 * expf (-dt / (R1 * C1)) ∧
    (EKF_Predict expf ekf current dt).p21 = expf (-dt / (R1 * C1)) * ekf.p21 ∧
    (EKF_Predict expf ekf current dt).p22
      = expf (-dt / (R1 * C1)) * ekf.p22 * expf (-dt / (R1 * C1)) + ekf.q22 ∧
    (EKF_Predict expf ekf current dt).q11 = ekf.q11 ∧
    (EKF_Predict expf ekf current dt).q22 = ekf.q22 ∧
    (EKF_Predict expf ekf current dt).r_voltage = ekf.r_voltage := by
  have hd : ¬ dt ≤ 0.0 := by rw [zero_lit]; exact not_le.mpr hdt
  have htau : R1 * C1 > (1e-9 : ℚ) := by norm_num [R1, C1]
  unfold EKF_Predict
  simp only [hd, if_false, capacity_guard, if_true, htau]
  norm_num

/-- The covariance written by `EKF_Update`; the noise parameters are not written. -/
theorem update_fields (ekf : EKF_State) (v_measured current : ℚ) :
    (EKF_Update ekf v_measured current).p11
      = (1 - (ekf.p11 - ekf.p12) / EKF_Update_S ekf) * ekf.p11
        + (ekf.p11 - ekf.p12) / EKF_Update_S ekf * ekf.p21 ∧
    (EKF_Update ekf v_measured current).p12
      = (1 - (ekf.p11 - ekf.p12) / EKF_Update_S ekf) * ekf.p12
        + (ekf.p11 - ekf.p12) / EKF_Update_S ekf * ekf.p22 ∧
    (EKF_Update ekf v_measured current).p21
      = -((ekf.p21 - ekf.p22) / EKF_Update_S ekf) * ekf.p11
        + (1 + (ekf.p21 - ekf.p22) / EKF_Update_S ekf) * ekf.p21 ∧
    (EKF_Update ekf v_measured current).p22
      = -((ekf.p21 - ekf.p22) / EKF_Update_S ekf) * ekf.p12
        + (1 + (ekf.p21 - ekf.p22) / EKF_Update_S ekf) * ekf.p22 ∧
    (EKF_Update ekf v_measured current).q11 = ekf.q11 ∧
    (EKF_Update ekf v_measured current).q22 = ekf.q22 ∧
    (EKF_Update ekf v_measured current).r_voltage = ekf.r_voltage := by
  unfold EKF_Update EKF_Update_S
  norm_num
  refine ⟨?_, ?_, ?_, ?_⟩ <;> ring

theorem update_S_pos (ekf : EKF_State) : 0 < EKF_Update_S ekf := by
  unfold EKF_Update_S
  simp only []
  split_ifs with h
  · norm_num
  · exact lt_of_lt_of_le (by norm_num) (not_lt.mp h)

theorem update_S_ge (ekf : EKF_State) :
    ekf.p11 - ekf.p12 - ekf.p21 + ekf.p22 + ekf.r_voltage ≤ EKF_Update_S ekf := by
  unfold EKF_Update_S
  simp only []
  split_ifs with h
  · norm_num at h ⊢
    linarith
  · norm_num
    linarith

/-- For a positive semi-definite symmetric 2x2 matrix, `H P Hᵀ` with `H = [1, -1]` is
non-negative. -/
theorem quad_form_nonneg (a b c : ℚ) (ha : 0 ≤ a) (hc : 0 ≤ c) (hdet : 0 ≤ a * c - b * b) :
    0 ≤ a - 2 * b + c := by
  by_contra hneg
  have h1 : a + c < 2 * b := by linarith
  have h2 : 0 ≤ a + c := by linarith
  have h3 : (a + c) * (a + c) < (2 * b) * (2 * b) := by nlinarith
  nlinarith [sq_nonneg (a - c)]

/-- `EKF_Update` keeps the covariance symmetric and positive semi-definite when
`r_voltage > 0`. -/
theorem update_psd (ekf : EKF_State) (v_measured current : ℚ) (hr : 0 < ekf.r_voltage)
    (hsym : ekf.p12 = ekf.p21) (h11 : 0 ≤ ekf.p11) (h22 : 0 ≤ ekf.p22)
    (hdet : 0 ≤ ekf.p11 * ekf.p22 - ekf.p12 * ekf.p21) :
    (EKF_Update ekf v_measured current).p12 = (EKF_Update ekf v_measured current).p21 ∧
    0 ≤ (EKF_Update ekf v_measured current).p11 ∧
    0 ≤ (EKF_Update ekf v_measured current).p22 ∧
    0 ≤ (EKF_Update ekf v_measured current).p11 * (EKF_Update ekf v_measured current).p22
      - (EKF_Update ekf v_measured current).p12 * (EKF_Update ekf v_measured current).p21 := by
  obtain ⟨e11, e12, e21, e22, -, -, -⟩ := update_fields ekf v_measured current
  have hS := update_S_pos ekf
  have hSm := update_S_ge ekf
  rw [e11, e12, e21, e22]
  rw [← hsym] at hSm hdet ⊢
  generalize EKF_Update_S ekf = S at hS hSm ⊢
  generalize ekf.p11 = a at *
  generalize ekf.p12 = b at *
  generalize ekf.p22 = c at *
  generalize ekf.r_voltage = r at *
  have hSne : S ≠ 0 := ne_of_gt hS
  have hm : 0 ≤ a - 2 * b + c := quad_form_nonneg a b c h11 h22 hdet
  have hgap : 0 ≤ S - (a - 2 * b + c) := by linarith
  have i11 : (1 - (a - b) / S) * a + (a - b) / S * b = (a * S - (a - b) ^ 2) / S := by
    field_simp
    ring
  have i22 : -((b - c) / S) * b + (1 + (b - c) / S) * c = (c * S - (b - c) ^ 2) / S := by
    field_simp
    ring
  have i12 : (1 - (a - b) / S) * b + (a - b) / S * c = (b * S - (a - b) * (b - c)) / S := by
    field_simp
    ring
  have i21 : -((b - c) / S) * a + (1 + (b - c) / S) * b = (b * S - (a - b) * (b - c)) / S := by
    field_simp
    ring
  have n11 : 0 ≤ a * S - (a - b) ^ 2 := by
    have := mul_nonneg h11 hgap
    nlinarith
  have n22 : 0 ≤ c * S - (b - c) ^ 2 := by
    have := mul_nonneg h22 hgap
    nlinarith
  have idet : (a * S - (a - b) ^ 2) / S * ((c * S - (b - c) ^ 2) / S)
      - (b * S - (a - b) * (b - c)) / S * ((b * S - (a - b) * (b - c)) / S)
      = (a * c - b * b) * (S - (a - 2 * b + c)) / S := by
    field_simp
    ring
  rw [i11, i22, i12, i21, idet]
  exact ⟨rfl, div_nonneg n11 hS.le, div_nonneg n22 hS.le,
    div_nonneg (mul_nonneg hdet hgap) hS.le⟩

/-- `EKF_Predict` with a positive timestep keeps the covariance symmetric and positive
semi-definite when `q11 ≥ 0` and `q22 ≥ 0`, whatever value `expf` returns. -/
theorem predict_psd (expf : ℚ → ℚ) (ekf : EKF_State) (current dt : ℚ) (hdt : 0 < dt)
    (hq1 : 0 ≤ ekf.q11) (hq2 : 0 ≤ ekf.q22)
    (hsym : ekf.p12 = ekf.p21) (h11 : 0 ≤ ekf.p11) (h22 : 0 ≤ ekf.p22)
    (hdet : 0 ≤ ekf.p11 * ekf.p22 - ekf.p12 * ekf.p21) :
    (EKF_Predict expf ekf current dt).p12 = (EKF_Predict expf ekf current dt).p21 ∧
    0 ≤ (EKF_Predict expf ekf current dt).p11 ∧
    0 ≤ (EKF_Predict expf ekf current dt).p22 ∧
    0 ≤ (EKF_Predict expf ekf current dt).p11 * (EKF_Predict expf ekf current dt).p22
      - (EKF_Predict expf ekf current dt).p12 * (EKF_Predict expf ekf current dt).p21 := by
  obtain ⟨-, e11, e12, e21, e22, -, -, -⟩ := predict_fields expf ekf current dt hdt
  rw [e11, e12, e21, e22]
  rw [← hsym] at hdet ⊢
  generalize expf (-dt / (R1 * C1)) = α
  have hα : 0 ≤ α * α := mul_self_nonneg α
  have t1 : 0 ≤ α * α * ekf.p22 := mul_nonneg hα h22
  have t2 : 0 ≤ α * α * (ekf.p11 * ekf.p22 - ekf.p12 * ekf.p12) := mul_nonneg hα hdet
  have t3 : 0 ≤ ekf.p11 * ekf.q22 := mul_nonneg h11 hq2
  have t4 : 0 ≤ ekf.q11 * (α * α * ekf.p22) := mul_nonneg hq1 t1
  have t5 : 0 ≤ ekf.q11 * ekf.q22 := mul_nonneg hq1 hq2
  refine ⟨by ring, by linarith, by nlinarith, by nlinarith⟩

/-- The covariance invariant together with the sign conditions on the noise
parameters is kept by every call on an `EKF_State`. -/
theorem ekf_call_psd (expf : ℚ → ℚ) (ekf : EKF_State) (call : EKF_Call)
    (h : (0 ≤ ekf.q11 ∧ 0 ≤ ekf.q22 ∧ 0 < ekf.r_voltage) ∧
      ekf.p12 = ekf.p21 ∧ 0 ≤ ekf.p11 ∧ 0 ≤ ekf.p22 ∧
      0 ≤ ekf.p11 * ekf.p22 - ekf.p12 * ekf.p21) :
    (0 ≤ (call.run expf ekf).q11 ∧ 0 ≤ (call.run expf ekf).q22 ∧
      0 < (call.run expf ekf).r_voltage) ∧
      (call.run expf ekf).p12 = (call.run expf ekf).p21 ∧ 0 ≤ (call.run expf ekf).p11 ∧
      0 ≤ (call.run expf ekf).p22 ∧
      0 ≤ (call.run expf ekf).p11 * (call.run expf ekf).p22
        - (call.run expf ekf).p12 * (call.run expf ekf).p21 := by
  obtain ⟨⟨hq1, hq2, hr⟩, hsym, h11, h22, hdet⟩ := h
  cases call with
  | predict current dt =>
    by_cases hdt : 0 < dt
    · obtain ⟨-, -, -, -, -, f1, f2, f3⟩ := predict_fields expf ekf current dt hdt
      refine ⟨?_, predict_psd expf ekf current dt hdt hq1 hq2 hsym h11 h22 hdet⟩
      show 0 ≤ (EKF_Predict expf ekf current dt).q11 ∧ 0 ≤ (EKF_Predict expf ekf current dt).q22
        ∧ 0 < (EKF_Predict expf ekf current dt).r_voltage
      rw [f1, f2, f3]
      exact ⟨hq1, hq2, hr⟩
    · simp only [EKF_Call.run, (nonpositive_dt_noop expf dt (not_lt.mp hdt)).2.2.1]
      exact ⟨⟨hq1, hq2, hr⟩, hsym, h11, h22, hdet⟩
  | update v_measured current =>
    obtain ⟨-, -, -, -, f1, f2, f3⟩ := update_fields ekf v_measured current
    refine ⟨?_, update_psd ekf v_measured current hr hsym h11 h22 hdet⟩
    show 0 ≤ (EKF_Update ekf v_measured current).q11 ∧ 0 ≤ (EKF_Update ekf v_measured current).q22
      ∧ 0 < (EKF_Update ekf v_measured current).r_voltage
    rw [f1, f2, f3]
    exact ⟨hq1, hq2, hr⟩

theorem ekf_run_psd (expf : ℚ → ℚ) (calls : List EKF_Call) :
    ∀ ekf : EKF_State,
      ((0 ≤ ekf.q11 ∧ 0 ≤ ekf.q22 ∧ 0 < ekf.r_voltage) ∧
        ekf.p12 = ekf.p21 ∧ 0 ≤ ekf.p11 ∧ 0 ≤ ekf.p22 ∧
        0 ≤ ekf.p11 * ekf.p22 - ekf.p12 * ekf.p21) →
      (EKF_run expf ekf calls).p12 = (EKF_run expf ekf calls).p21 ∧
      0 ≤ (EKF_run expf ekf calls).p11 ∧ 0 ≤ (EKF_run expf ekf calls).p22 ∧
      0 ≤ (EKF_run expf ekf calls).p11 * (EKF_run expf ekf calls).p22
        - (EKF_run expf ekf calls).p12 * (EKF_run expf ekf calls).p21 := by
  induction calls with
  | nil => intro ekf h; exact h.2
  | cons call rest ih =>
    intro ekf h
    exact ih (call.run expf ekf) (ekf_call_psd expf ekf call h)

theorem ekf_init_fields (z : EKF_State) (init_soc : ℚ) :
    (EKF_Init z init_soc).p11 = 0.01 ∧ (EKF_Init z init_soc).p12 = 0 ∧
    (EKF_Init z init_soc).p21 = 0 ∧ (EKF_Init z init_soc).p22 = 0.01 ∧
    (EKF_Init z init_soc).q11 = 1e-4 ∧ (EKF_Init z init_soc).q22 = 1e-3 ∧
    (EKF_Init z init_soc).r_voltage = 1e-2 := by
  refine ⟨rfl, ?_, ?_, rfl, rfl, rfl, rfl⟩
  · show (0.0 : ℚ) = 0
    norm_num
  · show (0.0 : ℚ) = 0
    norm_num

/-- With `expf` mapping negative arguments into [0,1], one `BMS_ECM_Step` with a
positive timestep keeps the polarization voltage non-negative. -/
theorem ecm_step_v1_nonneg (expf : ℚ → ℚ)
    (hexp : ∀ x : ℚ, x < 0 → 0 ≤ expf x ∧ expf x ≤ 1)
    (state : BMS_State) (current dt : ℚ) (hv : 0 ≤ state.v1) (hdt : 0 < dt) :
    0 ≤ (BMS_ECM_Step expf state current dt).v1 := by
  rw [ecm_step_v1 expf state current dt hdt]
  have hx : -dt / (R1 * C1) < 0 := by
    apply div_neg_of_neg_of_pos (by linarith)
    norm_num [R1, C1]
  obtain ⟨a0, a1⟩ := hexp _ hx
  have hR : (0 : ℚ) ≤ R1 := by norm_num [R1]
  have t1 : 0 ≤ state.v1 * expf (-dt / (R1 * C1)) := mul_nonneg hv a0
  have t2 : 0 ≤ |current| * R1 * (1 - expf (-dt / (R1 * C1))) :=
    mul_nonneg (mul_nonneg (abs_nonneg _) hR) (by linarith)
  linarith

theorem bms_call_v1_nonneg (expf : ℚ → ℚ)
    (hexp : ∀ x : ℚ, x < 0 → 0 ≤ expf x ∧ expf x ≤ 1)
    (state : BMS_State) (call : BMS_Call) (hv : 0 ≤ state.v1) :
    0 ≤ (call.run expf state).v1 := by
  cases call with
  | ecm_step current dt =>
    by_cases hdt : 0 < dt
    · exact ecm_step_v1_nonneg expf hexp state current dt hv hdt
    · simp only [BMS_Call.run, (nonpositive_dt_noop expf dt (not_lt.mp hdt)).1]
      exact hv
  | coulomb current dt =>
    simp only [BMS_Call.run, coulomb_v1]
    exact hv

theorem bms_run_v1_nonneg (expf : ℚ → ℚ)
    (hexp : ∀ x : ℚ, x < 0 → 0 ≤ expf x ∧ expf x ≤ 1) (calls : List BMS_Call) :
    ∀ state : BMS_State, 0 ≤ state.v1 → 0 ≤ (BMS_run expf state calls).v1 := by
  induction calls with
  | nil => intro state h; exact h
  | cons call rest ih =>
    intro state h
    exact ih (call.run expf state) (bms_call_v1_nonneg expf hexp state call h)

/-! ## Claims about the EKF and the ECM physics -/

/-- C15 (as stated, refuted): after `EKF_Init` none of `p11`, `q11`, `q22`,
`r_voltage` equals its configuration constant `EKF_P_INIT`, `EKF_Q_SOC`, `EKF_Q_V1`,
`EKF_R_VOLTAGE`. -/
theorem C15_init_differs_from_config :
    (EKF_Init ⟨0, 0, 0, 0, 0, 0, 0, 0, 0, 0, 0⟩ 0.5).p11 ≠ EKF_P_INIT ∧
    (EKF_Init ⟨0, 0, 0, 0, 0, 0, 0, 0, 0, 0, 0⟩ 0.5).p22 ≠ EKF_P_INIT ∧
    (EKF_Init ⟨0, 0, 0, 0, 0, 0, 0, 0, 0, 0, 0⟩ 0.5).q11 ≠ EKF_Q_SOC ∧
    (EKF_Init ⟨0, 0, 0, 0, 0, 0, 0, 0, 0, 0, 0⟩ 0.5).q22 ≠ EKF_Q_V1 ∧
    (EKF_Init ⟨0, 0, 0, 0, 0, 0, 0, 0, 0, 0, 0⟩ 0.5).r_voltage ≠ EKF_R_VOLTAGE := by
  obtain ⟨h1, -, -, h4, h5, h6, h7⟩ := ekf_init_fields ⟨0, 0, 0, 0, 0, 0, 0, 0, 0, 0, 0⟩ 0.5
  rw [h1, h4, h5, h6, h7]
  unfold EKF_P_INIT EKF_Q_SOC EKF_Q_V1 EKF_R_VOLTAGE
  norm_num

/-- C15 (amended): for every `init_soc`, after `EKF_Init` the state has
`p11 = p22 = 0.01`, `p12 = p21 = 0`, `q11 = 1e-4`, `q22 = 1e-3` and
`r_voltage = 1e-2`, literals of `EKF_Init`; each non-zero value is one tenth of the
constant `EKF_P_INIT`, `EKF_Q_SOC`, `EKF_Q_V1`, `EKF_R_VOLTAGE` of `bms_config.h`. -/
theorem C15_init_tuning_literals (z : EKF_State) (init_soc : ℚ) :
    (EKF_Init z init_soc).p11 = 0.01 ∧ (EKF_Init z init_soc).p22 = 0.01 ∧
    (EKF_Init z init_soc).p12 = 0 ∧ (EKF_Init z init_soc).p21 = 0 ∧
    (EKF_Init z init_soc).q11 = 1e-4 ∧ (EKF_Init z init_soc).q22 = 1e-3 ∧
    (EKF_Init z init_soc).r_voltage = 1e-2 ∧
    (EKF_Init z init_soc).p11 = EKF_P_INIT / 10 ∧
    (EKF_Init z init_soc).q11 = EKF_Q_SOC / 10 ∧
    (EKF_Init z init_soc).q22 = EKF_Q_V1 / 10 ∧
    (EKF_Init z init_soc).r_voltage = EKF_R_VOLTAGE / 10 := by
  obtain ⟨h1, h2, h3, h4, h5, h6, h7⟩ := ekf_init_fields z init_soc
  refine ⟨h1, h4, h2, h3, h5, h6, h7, ?_, ?_, ?_, ?_⟩
  · rw [h1]; norm_num [EKF_P_INIT]
  · rw [h5]; norm_num [EKF_Q_SOC]
  · rw [h6]; norm_num [EKF_Q_V1]
  · rw [h7]; norm_num [EKF_R_VOLTAGE]

/-- C17: polarization voltage never goes negative. With `expf` mapping negative
arguments into [0,1] (as the exponential does): for every state with `v1 ≥ 0`, every
current and every `dt > 0`, `BMS_ECM_Step` yields `v1 ≥ 0`; every state reachable from
`BMS_Init` by `BMS_ECM_Step` and `BMS_UpdateCoulombCount` calls has `v1 ≥ 0`; and
after a step with `dt > 0` taken from such a state, `v_terminal ≤ OCV(soc)`. -/
theorem C17_polarization_nonneg (expf : ℚ → ℚ)
    (hexp : ∀ x : ℚ, x < 0 → 0 ≤ expf x ∧ expf x ≤ 1) :
    (∀ (state : BMS_State) (current dt : ℚ), state.v1 ≥ 0 → dt > 0 →
      (BMS_ECM_Step expf state current dt).v1 ≥ 0) ∧
    (∀ (z : BMS_State) (calls : List BMS_Call),
      (BMS_run expf (BMS_Init z) calls).v1 ≥ 0) ∧
    (∀ (z : BMS_State) (calls : List BMS_Call) (current dt : ℚ), dt > 0 →
      (BMS_ECM_Step expf (BMS_run expf (BMS_Init z) calls) current dt).v_terminal
        ≤ ocv_from_soc
          (BMS_ECM_Step expf (BMS_run expf (BMS_Init z) calls) current dt).soc) := by
  have hreach : ∀ (z : BMS_State) (calls : List BMS_Call),
      0 ≤ (BMS_run expf (BMS_Init z) calls).v1 := by
    intro z calls
    apply bms_run_v1_nonneg expf hexp
    show (0 : ℚ) ≤ 0.0
    norm_num
  refine ⟨?_, hreach, ?_⟩
  · intro state current dt hv hdt
    exact ecm_step_v1_nonneg expf hexp state current dt hv hdt
  · intro z calls current dt hdt
    rw [ecm_step_v_terminal expf _ current dt hdt]
    have h1 := ecm_step_v1_nonneg expf hexp _ current dt (hreach z calls) hdt
    have h2 : 0 ≤ |current| * R0 := mul_nonneg (abs_nonneg _) (by norm_num [R0])
    linarith

theorem C17_polarization_nonneg_witness :
    (∀ x : ℚ, x < 0 → 0 ≤ (fun _ : ℚ => (19 : ℚ) / 20) x ∧ (fun _ : ℚ => (19 : ℚ) / 20) x ≤ 1) ∧
    (BMS_ECM_Step (fun _ => 19 / 20) ⟨0.5, 0.02, 3.6, 0, 0⟩ (-2) 1).v1 ≥ 0 ∧
    (BMS_ECM_Step (fun _ => 19 / 20)
      (BMS_run (fun _ => 19 / 20) (BMS_Init ⟨0, 0, 0, 0, 0⟩) [.ecm_step (-2) 1, .coulomb 1 5])
      (-1) 1).v_terminal
      ≤ ocv_from_soc (BMS_ECM_Step (fun _ => 19 / 20)
        (BMS_run (fun _ => 19 / 20) (BMS_Init ⟨0, 0, 0, 0, 0⟩)
          [.ecm_step (-2) 1, .coulomb 1 5]) (-1) 1).soc :=
  ⟨fun _ _ => by norm_num,
    (C17_polarization_nonneg (fun _ => 19 / 20) (fun _ _ => by norm_num)).1
      ⟨0.5, 0.02, 3.6, 0, 0⟩ (-2) 1 (by norm_num) (by norm_num),
    (C17_polarization_nonneg (fun _ => 19 / 20) (fun _ _ => by norm_num)).2.2
      ⟨0, 0, 0, 0, 0⟩ [.ecm_step (-2) 1, .coulomb 1 5] (-1) 1 (by norm_num)⟩

/-- C18: the EKF process model is the ECM physics. For every `BMS_State` and
`EKF_State` with equal soc and equal v1 and every current and dt, `BMS_ECM_Step` on
the one and `EKF_Predict` on the other give equal soc and equal v1 again. -/
theorem C18_predict_matches_ecm (expf : ℚ → ℚ) (bms : BMS_State) (ekf : EKF_State)
    (current dt : ℚ) (hsoc : bms.soc = ekf.soc) (hv1 : bms.v1 = ekf.v1) :
    (BMS_ECM_Step expf bms current dt).soc = (EKF_Predict expf ekf current dt).soc ∧
    (BMS_ECM_Step expf bms current dt).v1 = (EKF_Predict expf ekf current dt).v1 := by
  by_cases hdt : 0 < dt
  · rw [ecm_step_soc expf bms current dt hdt, predict_soc expf ekf current dt hdt,
      ecm_step_v1 expf bms current dt hdt, (predict_fields expf ekf current dt hdt).1,
      hsoc, hv1]
    exact ⟨rfl, rfl⟩
  · have h := nonpositive_dt_noop expf dt (not_lt.mp hdt)
    rw [h.1, h.2.2.1]
    exact ⟨hsoc, hv1⟩

theorem C18_predict_matches_ecm_witness :
    (BMS_ECM_Step (fun _ => 19 / 20) ⟨0.5, 0.02, 3.6, 0, 7⟩ (-2) 1).soc
      = (EKF_Predict (fun _ => 19 / 20) ⟨0.5, 0.02, 1, 0, 0, 1, 0.1, 0.1, 0.1, 0, 0⟩ (-2) 1).soc ∧
    (BMS_ECM_Step (fun _ => 19 / 20) ⟨0.5, 0.02, 3.6, 0, 7⟩ (-2) 1).v1
      = (EKF_Predict (fun _ => 19 / 20) ⟨0.5, 0.02, 1, 0, 0, 1, 0.1, 0.1, 0.1, 0, 0⟩ (-2) 1).v1 :=
  C18_predict_matches_ecm (fun _ => 19 / 20) ⟨0.5, 0.02, 3.6, 0, 7⟩
    ⟨0.5, 0.02, 1, 0, 0, 1, 0.1, 0.1, 0.1, 0, 0⟩ (-2) 1 rfl rfl

/-- C19: in exact arithmetic the covariance stays symmetric and positive
semi-definite. Every state reachable from `EKF_Init` by any sequence of `EKF_Predict`
and `EKF_Update` calls has `p12 = p21`, `p11 ≥ 0`, `p22 ≥ 0` and
`p11*p22 - p12*p21 ≥ 0`; and `EKF_Predict` (`dt > 0`) and `EKF_Update` each preserve
these four conditions whenever `q11 ≥ 0`, `q22 ≥ 0` and `r_voltage > 0`. -/
theorem C19_covariance_symmetric_psd (expf : ℚ → ℚ) :
    (∀ (z : EKF_State) (init_soc : ℚ) (calls : List EKF_Call),
      (EKF_run expf (EKF_Init z init_soc) calls).p12
        = (EKF_run expf (EKF_Init z init_soc) calls).p21 ∧
      (EKF_run expf (EKF_Init z init_soc) calls).p11 ≥ 0 ∧
      (EKF_run expf (EKF_Init z init_soc) calls).p22 ≥ 0 ∧
      (EKF_run expf (EKF_Init z init_soc) calls).p11
          * (EKF_run expf (EKF_Init z init_soc) calls).p22
        - (EKF_run expf (EKF_Init z init_soc) calls).p12
          * (EKF_run expf (EKF_Init z init_soc) calls).p21 ≥ 0) ∧
    (∀ (ekf : EKF_State) (current dt : ℚ), dt > 0 →
      ekf.q11 ≥ 0 → ekf.q22 ≥ 0 → ekf.r_voltage > 0 →
      ekf.p12 = ekf.p21 → ekf.p11 ≥ 0 → ekf.p22 ≥ 0 →
      ekf.p11 * ekf.p22 - ekf.p12 * ekf.p21 ≥ 0 →
      (EKF_Predict expf ekf current dt).p12 = (EKF_Predict expf ekf current dt).p21 ∧
      (EKF_Predict expf ekf current dt).p11 ≥ 0 ∧
      (EKF_Predict expf ekf current dt).p22 ≥ 0 ∧
      (EKF_Predict expf ekf current dt).p11 * (EKF_Predict expf ekf current dt).p22
        - (EKF_Predict expf ekf current dt).p12 * (EKF_Predict expf ekf current dt).p21
        ≥ 0) ∧
    (∀ (ekf : EKF_State) (v_measured current : ℚ),
      ekf.q11 ≥ 0 → ekf.q22 ≥ 0 → ekf.r_voltage > 0 →
      ekf.p12 = ekf.p21 → ekf.p11 ≥ 0 → ekf.p22 ≥ 0 →
      ekf.p11 * ekf.p22 - ekf.p12 * ekf.p21 ≥ 0 →
      (EKF_Update ekf v_measured current).p12 = (EKF_Update ekf v_measured current).p21 ∧
      (EKF_Update ekf v_measured current).p11 ≥ 0 ∧
      (EKF_Update ekf v_measured current).p22 ≥ 0 ∧
      (EKF_Update ekf v_measured current).p11 * (EKF_Update ekf v_measured current).p22
        - (EKF_Update ekf v_measured current).p12 * (EKF_Update ekf v_measured current).p21
        ≥ 0) := by
  refine ⟨?_, ?_, ?_⟩
  · intro z init_soc calls
    apply ekf_run_psd
    obtain ⟨h1, h2, h3, h4, h5, h6, h7⟩ := ekf_init_fields z init_soc
    rw [h1, h2, h3, h4, h5, h6, h7]
    norm_num
  · intro ekf current dt hdt hq1 hq2 _ hsym h11 h22 hdet
    exact predict_psd expf ekf current dt hdt hq1 hq2 hsym h11 h22 hdet
  · intro ekf v_measured current _ _ hr hsym h11 h22 hdet
    exact update_psd ekf v_measured current hr hsym h11 h22 hdet

theorem C19_covariance_symmetric_psd_witness :
    (EKF_Update ⟨0.5, 0, 2, 1, 1, 3, 0.1, 0.1, 0.5, 0, 0⟩ 3.6 (-1)).p12
      = (EKF_Update ⟨0.5, 0, 2, 1, 1, 3, 0.1, 0.1, 0.5, 0, 0⟩ 3.6 (-1)).p21 ∧
    (EKF_Update ⟨0.5, 0, 2, 1, 1, 3, 0.1, 0.1, 0.5, 0, 0⟩ 3.6 (-1)).p11 ≥ 0 ∧
    (EKF_Predict (fun _ => 19 / 20) ⟨0.5, 0, 2, 1, 1, 3, 0.1, 0.1, 0.5, 0, 0⟩ (-1) 1).p22
      ≥ 0 := by
  have hu := (C19_covariance_symmetric_psd (fun _ => 19 / 20)).2.2
    ⟨0.5, 0, 2, 1, 1, 3, 0.1, 0.1, 0.5, 0, 0⟩ 3.6 (-1)
    (by norm_num) (by norm_num) (by norm_num) rfl (by norm_num) (by norm_num) (by norm_num)
  have hp := (C19_covariance_symmetric_psd (fun _ => 19 / 20)).2.1
    ⟨0.5, 0, 2, 1, 1, 3, 0.1, 0.1, 0.5, 0, 0⟩ (-1) 1 (by norm_num)
    (by norm_num) (by norm_num) (by norm_num) rfl (by norm_num) (by norm_num) (by norm_num)
  exact ⟨hu.1, hu.2.1, hp.2.2.1⟩

/-! ## Facts about the measurement update -/

/-- The counters and the capacity estimate after one `SOH_CheckCycleComplete`, when
`total_cycles++` does not wrap: `total_cycles` grows by at most one,
`cycles_since_update` stays at most `total_cycles`, and the capacity estimate is
rewritten only when `total_cycles` has reached 20. -/
theorem checkCycle_counters (soh : SOH_State) (voltage : ℚ)
    (hlt : soh.total_cycles + 1 < 2 ^ 32)
    (hle : soh.cycles_since_update ≤ soh.total_cycles) :
    soh.total_cycles ≤ (SOH_CheckCycleComplete soh voltage).1.total_cycles ∧
    (SOH_CheckCycleComplete soh voltage).1.total_cycles ≤ soh.total_cycles + 1 ∧
    (SOH_CheckCycleComplete soh voltage).1.cycles_since_update
      ≤ (SOH_CheckCycleComplete soh voltage).1.total_cycles ∧
    (((SOH_CheckCycleComplete soh voltage).1.capacity_est_Ah = soh.capacity_est_Ah ∧
        (SOH_CheckCycleComplete soh voltage).1.soh_percent = soh.soh_percent) ∨
      20 ≤ (SOH_CheckCycleComplete soh voltage).1.total_cycles) := by
  have h1 : (soh.total_cycles + 1) % 2 ^ 32 = soh.total_cycles + 1 := Nat.mod_eq_of_lt hlt
  have h2 : (soh.cycles_since_update + 1) % 2 ^ 32 = soh.cycles_since_update + 1 :=
    Nat.mod_eq_of_lt (by omega)
  rw [checkCycle_cases]
  by_cases hc : soh.is_charging = false ∧ voltage ≤ VOLTAGE_MIN + 0.1 ∧
      voltage > soh.prev_voltage
  · rw [if_pos hc]
    by_cases hd : soh.discharged_Ah > 0.1
    · rw [if_pos hd]
      by_cases hu : (soh.cycles_since_update + 1) % 2 ^ 32 ≥ SOH_UPDATE_CYCLES
      · rw [if_pos hu]
        dsimp only
        rw [h1]
        rw [h2] at hu
        have hu20 : 20 ≤ soh.cycles_since_update + 1 := hu
        exact ⟨by omega, le_refl _, by omega, Or.inr (by omega)⟩
      · rw [if_neg hu]
        dsimp only
        rw [h1, h2]
        exact ⟨by omega, le_refl _, by omega, Or.inl ⟨rfl, rfl⟩⟩
    · rw [if_neg hd]
      dsimp only
      rw [h1, h2]
      exact ⟨by omega, le_refl _, by omega, Or.inl ⟨rfl, rfl⟩⟩
  · rw [if_neg hc]
    dsimp only
    exact ⟨le_refl _, by omega, hle, Or.inl ⟨rfl, rfl⟩⟩

/-- The same for any single call, `SOH_Update` included. -/
theorem soh_call_counters (soh : SOH_State) (call : SOH_Call)
    (hlt : soh.total_cycles + 1 < 2 ^ 32)
    (hle : soh.cycles_since_update ≤ soh.total_cycles) :
    soh.total_cycles ≤ (call.run soh).total_cycles ∧
    (call.run soh).total_cycles ≤ soh.total_cycles + 1 ∧
    (call.run soh).cycles_since_update ≤ (call.run soh).total_cycles ∧
    (((call.run soh).capacity_est_Ah = soh.capacity_est_Ah ∧
        (call.run soh).soh_percent = soh.soh_percent) ∨
      20 ≤ (call.run soh).total_cycles) := by
  cases call with
  | update current_A voltage_V dt_s =>
    show soh.total_cycles ≤ (SOH_Update soh current_A voltage_V dt_s).total_cycles ∧
      (SOH_Update soh current_A voltage_V dt_s).total_cycles ≤ soh.total_cycles + 1 ∧
      (SOH_Update soh current_A voltage_V dt_s).cycles_since_update
        ≤ (SOH_Update soh current_A voltage_V dt_s).total_cycles ∧
      (((SOH_Update soh current_A voltage_V dt_s).capacity_est_Ah = soh.capacity_est_Ah ∧
          (SOH_Update soh current_A voltage_V dt_s).soh_percent = soh.soh_percent) ∨
        20 ≤ (SOH_Update soh current_A voltage_V dt_s).total_cycles)
    by_cases hdt : 0 < dt_s
    · obtain ⟨-, hce, hsp, htc, hcsu, -, -, -⟩ := track_fields soh current_A voltage_V dt_s
      have h := checkCycle_counters (SOH_Update_track soh current_A voltage_V dt_s) voltage_V
        (by rw [htc]; exact hlt) (by rw [htc, hcsu]; exact hle)
      rw [htc, hce, hsp] at h
      rw [soh_update_eq soh current_A voltage_V dt_s hdt]
      exact h
    · rw [soh_update_noop soh current_A voltage_V dt_s (not_lt.mp hdt)]
      exact ⟨le_refl _, by omega, hle, Or.inl ⟨rfl, rfl⟩⟩
  | check voltage =>
    exact checkCycle_counters soh voltage hlt hle

/-- Along a run that is too short for `total_cycles` to wrap, the counter invariant
and "no capacity change before 20 counted cycles" are kept. -/
theorem soh_run_counters (c : ℚ) (calls : List SOH_Call) :
    ∀ (soh : SOH_State) (n : Nat), n + calls.length < 2 ^ 32 →
      soh.total_cycles ≤ n →
      soh.cycles_since_update ≤ soh.total_cycles →
      (soh.total_cycles < 20 → soh.capacity_est_Ah = c ∧ soh.soh_percent = 100) →
      (SOH_run soh calls).total_cycles ≤ n + calls.length ∧
      (SOH_run soh calls).cycles_since_update ≤ (SOH_run soh calls).total_cycles ∧
      ((SOH_run soh calls).total_cycles < 20 →
        (SOH_run soh calls).capacity_est_Ah = c ∧ (SOH_run soh calls).soh_percent = 100) := by
  induction calls with
  | nil =>
    intro soh n _ h1 h2 h3
    exact ⟨h1, h2, h3⟩
  | cons call rest ih =>
    intro soh n hlen h1 h2 h3
    have hlen2 : n + (rest.length + 1) < 2 ^ 32 := by simpa using hlen
    obtain ⟨s1, s2, s3, s4⟩ := soh_call_counters soh call (by omega) h2
    have hrec := ih (call.run soh) (n + 1) (by omega) (by omega) s3 (by
      intro hlt20
      rcases s4 with ⟨e1, e2⟩ | h20
      · rw [e1, e2]
        exact h3 (by omega)
      · omega)
    have hl : n + (call :: rest).length = n + 1 + rest.length := by
      simp only [List.length_cons]
      omega
    rw [hl]
    exact hrec

/-! ## Claims about the cycle counters -/

/-- C22: no capacity fade is reported before 20 counted cycles. For every state
reached from `SOH_Init(c)` by a sequence of `SOH_Update` and `SOH_CheckCycleComplete`
calls that is too short for the 32-bit counters to wrap (fewer than 2^32 calls),
`cycles_since_update ≤ total_cycles`, and if `total_cycles < 20` then
`capacity_est_Ah = c` and `soh_percent = 100`. -/
theorem C22_no_fade_before_20_cycles (z : SOH_State) (c : ℚ) (calls : List SOH_Call)
    (hlen : calls.length < 2 ^ 32) :
    (SOH_run (SOH_Init z c) calls).cycles_since_update
      ≤ (SOH_run (SOH_Init z c) calls).total_cycles ∧
    ((SOH_run (SOH_Init z c) calls).total_cycles < 20 →
      (SOH_run (SOH_Init z c) calls).capacity_est_Ah = c ∧
      (SOH_run (SOH_Init z c) calls).soh_percent = 100) := by
  have h := soh_run_counters c calls (SOH_Init z c) 0 (by omega) (le_refl _) (le_refl _)
    (fun _ => ⟨rfl, by show (100.0 : ℚ) = 100; norm_num⟩)
  exact h.2

theorem C22_no_fade_before_20_cycles_witness :
    ([SOH_Call.update (-1) 2.5 1, SOH_Call.update (-1) 2.75 1, SOH_Call.check 2.79].length
      < 2 ^ 32) ∧
    (SOH_run (SOH_Init ⟨0, 0, 0, 0, 0, false, 0, 0, 0, 0⟩ 1.862)
      [.update (-1) 2.5 1, .update (-1) 2.75 1, .check 2.79]).cycles_since_update
      ≤ (SOH_run (SOH_Init ⟨0, 0, 0, 0, 0, false, 0, 0, 0, 0⟩ 1.862)
        [.update (-1) 2.5 1, .update (-1) 2.75 1, .check 2.79]).total_cycles :=
  ⟨by decide,
    (C22_no_fade_before_20_cycles ⟨0, 0, 0, 0, 0, false, 0, 0, 0, 0⟩ 1.862
      [.update (-1) 2.5 1, .update (-1) 2.75 1, .check 2.79] (by decide)).1⟩

end BMS
